import Mathlib

/-!
Verification of the atla-insights JS SDK attribute-extraction and
context-propagation engine, as a shallow embedding in Lean 4.

JS strings are modelled by Lean `String` (lengths count characters; the
source counts UTF-16 code units, which agrees on the BMP inputs considered
here).  JS objects that are used as ordered string-keyed maps are modelled
by association lists in insertion order with distinct keys.  JSON values
are modelled by an inductive `Json`; `JSON.stringify` is modelled by an
executable serializer.
-/

namespace AtlaInsights

/-- JSON values, also used to model generic JS payload values
(string / number / boolean / null / array / plain object). -/
inductive Json where
  | nullJ : Json
  | boolJ (b : Bool) : Json
  | strJ (s : String) : Json
  | numJ (n : Int) : Json
  | arrJ (xs : List Json) : Json
  | objJ (fs : List (String × Json)) : Json
deriving Repr

/-- Escape one character for a JSON string literal (quote and backslash;
the inputs considered contain no control characters). -/
def jsonEscapeChar (c : Char) : String :=
  if c = '"' then "\\\"" else if c = '\\' then "\\\\" else String.singleton c

/-- Escape a string for inclusion in a JSON string literal. -/
def jsonEscape (s : String) : String :=
  s.data.foldl (fun acc c => acc ++ jsonEscapeChar c) ""

mutual

/-- Model of `safeSerialize` from `frameworks/openai-agents/utils.ts`:
`JSON.stringify` with a replacer that preserves `null` (on `Json` values the
replacer is the identity, so this is plain `JSON.stringify`). -/
def safeSerialize : Json → String
  | .nullJ => "null"
  | .boolJ true => "true"
  | .boolJ false => "false"
  | .strJ s => "\"" ++ jsonEscape s ++ "\""
  | .numJ n => toString n
  | .arrJ xs => "[" ++ serializeArrItems xs ++ "]"
  | .objJ fs => "\x7b" ++ serializeObjFields fs ++ "\x7d"

/-- Comma-separated serialization of array elements. -/
def serializeArrItems : List Json → String
  | [] => ""
  | [x] => safeSerialize x
  | x :: y :: rest => safeSerialize x ++ "," ++ serializeArrItems (y :: rest)

/-- Comma-separated serialization of object fields. -/
def serializeObjFields : List (String × Json) → String
  | [] => ""
  | [(k, v)] => "\"" ++ jsonEscape k ++ "\":" ++ safeSerialize v
  | (k, v) :: f :: rest =>
      "\"" ++ jsonEscape k ++ "\":" ++ safeSerialize v ++ "," ++
        serializeObjFields (f :: rest)

end

/-- OpenTelemetry attribute values (string / number / boolean). -/
inductive AttrVal where
  | s (v : String) : AttrVal
  | i (v : Int) : AttrVal
  | b (v : Bool) : AttrVal
deriving DecidableEq, Repr

/-- Field lookup on a JSON object (`none` on non-objects / missing keys). -/
def jsonObjGet (j : Json) (key : String) : Option Json :=
  match j with
  | .objJ fs => (fs.find? (fun kv => kv.1 == key)).map (·.2)
  | _ => none

/-- JS truthiness of a string (empty string is falsy). -/
def strTruthy (s : String) : Bool := s != ""

/-- JS truthiness of an optional string (absent/undefined/null modelled as
`none`, which is falsy; the empty string is falsy too). -/
def optStrTruthy : Option String → Bool
  | none => false
  | some s => strTruthy s

/-- JS truthiness of a JSON value. -/
def jsonTruthy : Json → Bool
  | .nullJ => false
  | .boolJ b => b
  | .strJ s => strTruthy s
  | .numJ n => n != 0
  | .arrJ _ => true
  | .objJ _ => true

/-! ### Constants

From `internal/constants.ts` and the published
`@arizeai/openinference-semantic-conventions` values used by the source. -/

def METADATA_MARK : String := "atla.metadata"
def SUCCESS_MARK : String := "atla.mark.success"
def GIT_BRANCH_MARK : String := "atla.git.branch"
def GIT_COMMIT_HASH_MARK : String := "atla.git.commit.hash"
def GIT_COMMIT_MESSAGE_MARK : String := "atla.git.commit.message"
def GIT_COMMIT_TIMESTAMP_MARK : String := "atla.git.commit.timestamp"
def GIT_REPO_MARK : String := "atla.git.repo"
def GIT_SEMVER_MARK : String := "atla.git.semver"
def ENVIRONMENT_MARK : String := "atla.environment"
def EXPERIMENT_NAMESPACE : String := "atla.experiment"
def MAX_METADATA_FIELDS : Nat := 25
def MAX_METADATA_KEY_CHARS : Nat := 40
def MAX_METADATA_VALUE_CHARS : Nat := 100

def OPENINFERENCE_SPAN_KIND : String := "openinference.span.kind"
def LLM_SYSTEM : String := "llm.system"
def MESSAGE_ROLE : String := "message.role"
def MESSAGE_CONTENT : String := "message.content"
def MESSAGE_CONTENTS : String := "message.contents"
def MESSAGE_CONTENT_TYPE : String := "message_content.type"
def MESSAGE_CONTENT_TEXT : String := "message_content.text"
def MESSAGE_TOOL_CALLS : String := "message.tool_calls"
def MESSAGE_TOOL_CALL_ID : String := "message.tool_call_id"
def TOOL_CALL_ID : String := "tool_call.id"
def TOOL_CALL_FUNCTION_NAME : String := "tool_call.function.name"
def TOOL_CALL_FUNCTION_ARGUMENTS_JSON : String := "tool_call.function.arguments"
def TOOL_NAME : String := "tool.name"
def TOOL_DESCRIPTION : String := "tool.description"
def TOOL_PARAMETERS : String := "tool.parameters"
def TOOL_JSON_SCHEMA : String := "tool.json_schema"
def LLM_TOOLS : String := "llm.tools"
def LLM_MODEL_NAME : String := "llm.model_name"
def LLM_INVOCATION_PARAMETERS : String := "llm.invocation_parameters"
def LLM_PROVIDER : String := "llm.provider"
def LLM_INPUT_MESSAGES : String := "llm.input_messages"
def LLM_OUTPUT_MESSAGES : String := "llm.output_messages"
def LLM_TOKEN_COUNT_PROMPT : String := "llm.token_count.prompt"
def LLM_TOKEN_COUNT_COMPLETION : String := "llm.token_count.completion"
def LLM_TOKEN_COUNT_TOTAL : String := "llm.token_count.total"
def LLM_TOKEN_COUNT_PROMPT_DETAILS_CACHE_READ : String :=
  "llm.token_count.prompt_details.cache_read"
def LLM_TOKEN_COUNT_COMPLETION_DETAILS_REASONING : String :=
  "llm.token_count.completion_details.reasoning"
def INPUT_VALUE : String := "input.value"
def INPUT_MIME_TYPE : String := "input.mime_type"
def OUTPUT_VALUE : String := "output.value"
def OUTPUT_MIME_TYPE : String := "output.mime_type"
def GRAPH_NODE_ID : String := "graph.node.id"
def GRAPH_NODE_PARENT_ID : String := "graph.node.parent_id"
def MIME_TYPE_JSON : String := "application/json"
def SPAN_KIND_AGENT : String := "AGENT"
def SPAN_KIND_LLM : String := "LLM"
def SPAN_KIND_TOOL : String := "TOOL"
def SPAN_KIND_CHAIN : String := "CHAIN"
def LLM_SYSTEM_OPENAI : String := "openai"
def LLM_PROVIDER_OPENAI : String := "openai"
def ROLE_TOOL : String := "tool"
def ROLE_SYSTEM : String := "system"
/-- The two-character empty-object literal compared against argument strings. -/
def EMPTY_OBJECT_LITERAL : String := "\x7b\x7d"

/-! ### Metadata validation (`metadata.ts`)

A JS metadata object is an insertion-ordered association list of
string keys (distinct) to string values. -/

/-- A plain string-to-string JS object, in insertion order. -/
abbrev Metadata := List (String × String)

/-- The runtime value handed to `validateMetadata`: a plain object, an
array, `null`, or a non-object primitive. -/
inductive MetadataInput where
  | obj (entries : Metadata) : MetadataInput
  | arr : MetadataInput
  | nullVal : MetadataInput
  | primitive : MetadataInput
deriving DecidableEq, Repr

/-- `truncateValue` from `metadata.ts`: substring to the first
`maxLength` characters when over the limit. -/
def truncateValue (value : String) (maxLength : Nat) : String :=
  if value.length > maxLength then { data := value.data.take maxLength } else value

/-- JS object property assignment `o[k] = v` on an insertion-ordered
association list: replace the value in place when the key exists, else
append a new entry. -/
def jsObjSet (o : List (String × String)) (k v : String) : List (String × String) :=
  if o.any (fun kv => kv.1 == k) then
    o.map (fun kv => if kv.1 == k then (k, v) else kv)
  else
    o ++ [(k, v)]

/-- The field-count cap of `validateMetadata`:
`Object.entries(metadata).slice(0, MAX_METADATA_FIELDS)` followed by
`Object.fromEntries` (which, on distinct keys, keeps the kept entries
unchanged). -/
def metadataCapFields (entries : Metadata) : Metadata :=
  if entries.length > MAX_METADATA_FIELDS then entries.take MAX_METADATA_FIELDS
  else entries

/-- The key-truncation pass of `validateMetadata`: when some key is over
the limit, rebuild the object assigning every entry under its truncated
key (later entries overwrite colliding earlier ones, as JS assignment
does). -/
def metadataTruncKeys (m : Metadata) : Metadata :=
  if m.any (fun kv => kv.1.length > MAX_METADATA_KEY_CHARS) then
    m.foldl
      (fun acc kv => jsObjSet acc (truncateValue kv.1 MAX_METADATA_KEY_CHARS) kv.2) []
  else m

/-- The value-truncation pass of `validateMetadata`: when some value is
over the limit, truncate every oversized value in place. -/
def metadataTruncValues (m : Metadata) : Metadata :=
  if m.any (fun kv => kv.2.length > MAX_METADATA_VALUE_CHARS) then
    m.map (fun kv =>
      if kv.2.length > MAX_METADATA_VALUE_CHARS then
        (kv.1, truncateValue kv.2 MAX_METADATA_VALUE_CHARS)
      else kv)
  else m

/-- `validateMetadata` from `metadata.ts`.  Non-object, `null`, or array
input throws (`Except.error`).  On a plain string-to-string object (in
this model keys and values are strings, so the string-coercion loop of
the source is the identity) the three correction passes run in source
order: field-count cap, key truncation, value truncation. -/
def validateMetadata : MetadataInput → Except String Metadata
  | .arr => .error "The metadata field must be a dictionary."
  | .nullVal => .error "The metadata field must be a dictionary."
  | .primitive => .error "The metadata field must be a dictionary."
  | .obj entries =>
    .ok (metadataTruncValues (metadataTruncKeys (metadataCapFields entries)))

/-! ### Ambient context and span lifecycle (`context.ts`, `metadata.ts`,
`instrumentation.ts`, `span.ts`)

OpenTelemetry's context API is the external collaborator here: `with(ctx,
fn)` makes `ctx` the active context strictly for the duration of `fn` and
restores the previous active context afterwards (a `finally`-style
restore, so it happens on throw as well).  We model it over an explicit
mutable active-context cell inside a state/exception monad, so the restore
is a real operation rather than being true by construction.  Spans are
identified by allocation order (`Nat`), and every span operation is
appended to an event log. -/

/-- An experiment descriptor (`runExperiment`). -/
structure Experiment where
  name : String
  description : Option String
deriving DecidableEq, Repr

/-- The `AtlaContext` record from `context.ts` (all fields optional;
`none` models an absent key).  It doubles as an updates record. -/
structure AtlaCtx where
  rootSpan : Option Nat := none
  suppressInstrumentation : Option Bool := none
  experiment : Option Experiment := none
deriving DecidableEq, Repr

/-- Object spread merge of two `AtlaContext` records
(`\x7b...current, ...updates\x7d`): a field present in `updates`
overrides, otherwise the field of `current` survives. -/
def mergeAtlaCtx (current updates : AtlaCtx) : AtlaCtx where
  rootSpan := updates.rootSpan.orElse (fun _ => current.rootSpan)
  suppressInstrumentation :=
    updates.suppressInstrumentation.orElse (fun _ => current.suppressInstrumentation)
  experiment := updates.experiment.orElse (fun _ => current.experiment)

/-- An OpenTelemetry `Context` value, restricted to the keys the SDK
reads: the Atla context key, the metadata context key, and the active
span. -/
structure OtelContext where
  atla : Option AtlaCtx := none
  metadata : Option Metadata := none
  currentSpan : Option Nat := none
deriving DecidableEq, Repr

/-- JS error values.  `thrown n` is an arbitrary application-level error
identified by `n` (identity is what matters for re-throw claims);
`message s` is an `Error(s)` constructed by the SDK itself. -/
inductive JsError where
  | thrown (n : Nat) : JsError
  | message (s : String) : JsError
deriving DecidableEq, Repr

/-- Events recorded against OpenTelemetry spans. -/
inductive SpanEvent where
  | start (id : Nat) (name : String) : SpanEvent
  | exception (id : Nat) (e : JsError) : SpanEvent
  | finish (id : Nat) : SpanEvent
deriving DecidableEq, Repr

/-- Process state: the active context cell, the span-id allocator, the
span event log, and the module-global default metadata of `metadata.ts`. -/
structure TraceState where
  active : OtelContext := {}
  nextId : Nat := 0
  events : List SpanEvent := []
  globalMetadata : Metadata := []
deriving DecidableEq, Repr

/-- A JS computation: reads/writes the process state, and either returns
a value or throws. -/
def M (α : Type) : Type := TraceState → Except JsError α × TraceState

/-- Return. -/
def mPure {α : Type} (a : α) : M α := fun s => (.ok a, s)

/-- Sequencing; a thrown error short-circuits. -/
def mBind {α β : Type} (m : M α) (f : α → M β) : M β := fun s =>
  match m s with
  | (.ok a, s') => f a s'
  | (.error e, s') => (.error e, s')

/-- `throw e`. -/
def mThrow {α : Type} (e : JsError) : M α := fun s => (.error e, s)

/-- JS `try/catch/finally`: the handler runs only on throw; the finalizer
runs on every path (an error thrown by the finalizer replaces the
result). -/
def tryCatchFinally {α : Type} (body : M α) (onCatch : JsError → M α)
    (fin : M Unit) : M α := fun s =>
  match body s with
  | (.ok v, s1) =>
    match fin s1 with
    | (.ok _, s2) => (.ok v, s2)
    | (.error e2, s2) => (.error e2, s2)
  | (.error e, s1) =>
    match onCatch e s1 with
    | (r, s2) =>
      match fin s2 with
      | (.ok _, s3) => (r, s3)
      | (.error e2, s3) => (.error e2, s3)

/-- JS `try/finally` (no catch). -/
def tryFinally {α : Type} (body : M α) (fin : M Unit) : M α := fun s =>
  match body s with
  | (r, s1) =>
    match fin s1 with
    | (.ok _, s2) => (r, s2)
    | (.error e2, s2) => (.error e2, s2)

/-- `otelContext.with(ctx, fn)`: make `ctx` active for the duration of
`fn`, restoring the previous active context afterwards even on throw. -/
def otelWith {α : Type} (ctx : OtelContext) (m : M α) : M α := fun s =>
  match m { s with active := ctx } with
  | (r, s1) => (r, { s1 with active := s.active })

/-- `getAtlaContext()` from `context.ts`: the Atla key of the active
context. -/
def getAtlaContextM : M (Option AtlaCtx) := fun s => (.ok s.active.atla, s)

/-- `runWithContext(updates, fn)` from `context.ts`: shallow-merge
`updates` into (a copy of) the current Atla context (defaulting to the
empty record) and run `fn` with the result installed. -/
def runWithContext {α : Type} (updates : AtlaCtx) (fn : M α) : M α := fun s =>
  let current := s.active.atla.getD {}
  otelWith { s.active with atla := some (mergeAtlaCtx current updates) } fn s

/-- `withMetadata(metadata, fn)` from `metadata.ts`: validate (which may
throw), then install the validated metadata as the context-local metadata
for the duration of `fn`. -/
def withMetadata {α : Type} (metadata : MetadataInput) (fn : M α) : M α := fun s =>
  match validateMetadata metadata with
  | .error msg => (.error (.message msg), s)
  | .ok validated => otelWith { s.active with metadata := some validated } fn s

/-- `getMetadata()` from `metadata.ts`: context-local metadata when the
key is set, else the module-global default (an object, hence truthy). -/
def getMetadataM : M (Option Metadata) := fun s =>
  (.ok (some (s.active.metadata.getD s.globalMetadata)), s)

/-- `tracer.startActiveSpan(name, fn)` (OpenTelemetry): allocate a span,
record its start, and run the callback with the span set as the active
span of the ambient context (restored afterwards).  The span is NOT ended
automatically. -/
def startActiveSpan {α : Type} (name : String) (body : Nat → M α) : M α := fun s =>
  let sid := s.nextId
  let s0 : TraceState :=
    { s with nextId := sid + 1, events := s.events ++ [.start sid name] }
  otelWith { s0.active with currentSpan := some sid } (body sid) s0

/-- `span.recordException(e)`. -/
def recordException (sid : Nat) (e : JsError) : M Unit := fun s =>
  (.ok (), { s with events := s.events ++ [.exception sid e] })

/-- `span.end()`. -/
def endSpan (sid : Nat) : M Unit := fun s =>
  (.ok (), { s with events := s.events ++ [.finish sid] })

/-- The wrapped-call body shared by the sync and async variants of
`instrumentFunction` in `instrumentation.ts` (in this interleaving-free
model awaiting is transparent, so both variants have the same
semantics): read the Atla context; when `suppressInstrumentation` is set
call straight through; otherwise start an active span, run the callee
under a context whose `rootSpan` is the ambient root span or else the new
span, record any thrown error on the span and re-throw it, and end the
span in a `finally`. -/
def instrumentedCall {α : Type} (spanName : String) (fn : M α) : M α :=
  mBind getAtlaContextM (fun ctx =>
    if (ctx.bind (·.suppressInstrumentation)).getD false then fn
    else
      startActiveSpan spanName (fun span =>
        tryCatchFinally
          (runWithContext
            { ctx.getD {} with rootSpan := some ((ctx.bind (·.rootSpan)).getD span) }
            fn)
          (fun e => mBind (recordException span e) (fun _ => mThrow e))
          (endSpan span)))

/-- `startAsCurrentSpan(name, fn)` from `span.ts`: start an active span,
run `fn` (which receives the span handle) under a context whose
`rootSpan` is the ambient root span or else the new span, and end the
span in a `finally`.  There is no catch clause: a thrown error propagates
unchanged and unrecorded. -/
def startAsCurrentSpanM {α : Type} (name : String) (fn : Nat → M α) : M α :=
  startActiveSpan name (fun span =>
    mBind getAtlaContextM (fun currentContext =>
      tryFinally
        (runWithContext
          { currentContext.getD {} with
              rootSpan := some ((currentContext.bind (·.rootSpan)).getD span) }
          (fn span))
        (endSpan span)))

/-! ### OpenAI-agents attribute mappers (`frameworks/openai-agents/index.ts`)

JS `Map`s and plain objects used as maps are association lists in
insertion order with `Map.set` / property-assignment semantics. -/

/-- `Map.get` / property read. -/
def mapGet {β : Type} (l : List (String × β)) (k : String) : Option β :=
  (l.find? (fun kv => kv.1 == k)).map (·.2)

/-- `Map.has` / `in`. -/
def mapHas {β : Type} (l : List (String × β)) (k : String) : Bool :=
  l.any (fun kv => kv.1 == k)

/-- `Map.set` / property assignment: update in place when present, else
append. -/
def mapSet {β : Type} (l : List (String × β)) (k : String) (v : β) :
    List (String × β) :=
  if mapHas l k then l.map (fun kv => if kv.1 == k then (k, v) else kv)
  else l ++ [(k, v)]

/-- `Map.delete`. -/
def mapDelete {β : Type} (l : List (String × β)) (k : String) :
    List (String × β) :=
  l.filter (fun kv => kv.1 != k)

/-- A `Responses.Tool`: a function tool (name, optional description, JSON
schema parameters, nullable strict flag), a custom tool, or one of the
built-in tool kinds that carry no `name` property. -/
inductive ResponseTool where
  | functionTool (name : String) (description : Option String)
      (parameters : Json) (strict : Option Bool) : ResponseTool
  | customTool (name : String) (description : Option String) : ResponseTool
  | otherTool : ResponseTool

/-- The `name` property, when the tool has one. -/
def toolName? : ResponseTool → Option String
  | .functionTool n _ _ _ => some n
  | .customTool n _ => some n
  | .otherTool => none

/-- The `description` property. -/
def toolDescription : ResponseTool → Option String
  | .functionTool _ d _ _ => d
  | .customTool _ d => d
  | .otherTool => none

/-- `"parameters" in tool && tool.parameters !== undefined`. -/
def toolParameters : ResponseTool → Option Json
  | .functionTool _ _ p _ => some p
  | _ => none

/-- The per-trace tool cache: trace id to a name-keyed object of declared
tools. -/
abbrev ToolCache := List (String × List (String × ResponseTool))

/-- The cache read of `getAttributesFromFunctionToolCall` /
`getAttributesFromFunctionSpanData`:
`traceId && toolCache.has(traceId)` then `toolCache.get(traceId)?.[name]`. -/
def toolCacheLookup (tc : ToolCache) (traceId : Option String) (name : String) :
    Option ResponseTool :=
  match traceId with
  | some tid =>
    if strTruthy tid && mapHas tc tid then (mapGet tc tid).bind (fun m => mapGet m name)
    else none
  | none => none

/-- A `Responses.ResponseFunctionToolCall` (fields required by the API
type). -/
structure FunctionToolCall where
  call_id : String
  name : String
  arguments : String
deriving DecidableEq, Repr

/-- A `Responses.ResponseCustomToolCall` (fields are truthiness-checked
before emission). -/
structure CustomToolCall where
  call_id : String
  name : String
  input : String
deriving DecidableEq, Repr

/-- A content part of a message
(`Responses.ResponseInputContent | Responses.ResponseContent`). -/
inductive ContentItem where
  | inputText (text : String) : ContentItem
  | outputText (text : String) : ContentItem
  | inputImage : ContentItem
  | inputFile : ContentItem
  | refusalItem (refusal : String) : ContentItem
  | otherContent (tag : String) : ContentItem
deriving DecidableEq, Repr

/-- Loop body of `getAttributesFromMessageContentList`: the index
advances for every item, including skipped ones. -/
def messageContentListGo (pfx : String) :
    List ContentItem → Nat → List (String × AttrVal)
  | [], _ => []
  | item :: rest, index =>
    (match item with
     | .inputText t =>
       [(pfx ++ MESSAGE_CONTENTS ++ "." ++ toString index ++ "." ++ MESSAGE_CONTENT_TYPE,
         .s "text"),
        (pfx ++ MESSAGE_CONTENTS ++ "." ++ toString index ++ "." ++ MESSAGE_CONTENT_TEXT,
         .s t)]
     | .outputText t =>
       [(pfx ++ MESSAGE_CONTENTS ++ "." ++ toString index ++ "." ++ MESSAGE_CONTENT_TYPE,
         .s "text"),
        (pfx ++ MESSAGE_CONTENTS ++ "." ++ toString index ++ "." ++ MESSAGE_CONTENT_TEXT,
         .s t)]
     | .inputImage => []
     | .inputFile => []
     | .refusalItem r =>
       [(pfx ++ MESSAGE_CONTENTS ++ "." ++ toString index ++ "." ++ MESSAGE_CONTENT_TYPE,
         .s "refusal"),
        (pfx ++ MESSAGE_CONTENTS ++ "." ++ toString index ++ "." ++ MESSAGE_CONTENT_TEXT,
         .s r)]
     | .otherContent _ => [])
    ++ messageContentListGo pfx rest (index + 1)

/-- `getAttributesFromMessageContentList(obj, prefix)`: text parts
(`input_text` / `output_text`) emit a "text"-typed type/text pair,
refusal parts a "refusal"-typed pair, image and file parts nothing. -/
def getAttributesFromMessageContentList (obj : List ContentItem)
    (pfx : String := "") : List (String × AttrVal) :=
  messageContentListGo pfx obj 0

/-- A `Responses.ResponseOutputMessage`. -/
structure OutputMessage where
  role : String
  content : List ContentItem
deriving DecidableEq, Repr

/-- Loop body of `getAttributesFromMessage` over `obj.content.entries()`:
`output_text` and `refusal` parts both normalize to type "text"; other
parts emit nothing, but every part consumes an index. -/
def messageContentGo (pfx : String) :
    List ContentItem → Nat → List (String × AttrVal)
  | [], _ => []
  | item :: rest, index =>
    (match item with
     | .outputText t =>
       [(pfx ++ MESSAGE_CONTENTS ++ "." ++ toString index ++ "." ++ MESSAGE_CONTENT_TYPE,
         .s "text"),
        (pfx ++ MESSAGE_CONTENTS ++ "." ++ toString index ++ "." ++ MESSAGE_CONTENT_TEXT,
         .s t)]
     | .refusalItem r =>
       [(pfx ++ MESSAGE_CONTENTS ++ "." ++ toString index ++ "." ++ MESSAGE_CONTENT_TYPE,
         .s "text"),
        (pfx ++ MESSAGE_CONTENTS ++ "." ++ toString index ++ "." ++ MESSAGE_CONTENT_TEXT,
         .s r)]
     | _ => [])
    ++ messageContentGo pfx rest (index + 1)

/-- `getAttributesFromMessage(obj, prefix)`: role plus per-part
attributes. -/
def getAttributesFromMessage (obj : OutputMessage) (pfx : String := "") :
    List (String × AttrVal) :=
  [(pfx ++ MESSAGE_ROLE, .s obj.role)] ++ messageContentGo pfx obj.content 0

/-- `getAttributesFromFunctionToolCall(obj, traceId, prefix)`: always
emits id and function name; emits the arguments string only when it is
not the two-character literal `"\x7b\x7d"`; appends cached tool
description/parameters when this trace's tool cache knows the tool. -/
def getAttributesFromFunctionToolCall (tc : ToolCache) (obj : FunctionToolCall)
    (traceId : Option String) (pfx : String := "") : List (String × AttrVal) :=
  [(pfx ++ TOOL_CALL_ID, .s obj.call_id),
   (pfx ++ TOOL_CALL_FUNCTION_NAME, .s obj.name)]
  ++ (if obj.arguments != EMPTY_OBJECT_LITERAL then
        [(pfx ++ TOOL_CALL_FUNCTION_ARGUMENTS_JSON, .s obj.arguments)]
      else [])
  ++ (match toolCacheLookup tc traceId obj.name with
      | some tool =>
        [(pfx ++ TOOL_DESCRIPTION, .s ((toolDescription tool).getD ""))]
        ++ (match toolParameters tool with
            | some p => [(pfx ++ TOOL_PARAMETERS, .s (safeSerialize p))]
            | none => [])
      | none => [])

/-- `getAttributesFromResponseCustomToolCall(obj, prefix)`: each field is
emitted only when truthy; the input is wrapped in an `input` object
before serialization. -/
def getAttributesFromResponseCustomToolCall (obj : CustomToolCall)
    (pfx : String := "") : List (String × AttrVal) :=
  (if strTruthy obj.call_id then [(pfx ++ TOOL_CALL_ID, .s obj.call_id)] else [])
  ++ (if strTruthy obj.name then [(pfx ++ TOOL_CALL_FUNCTION_NAME, .s obj.name)] else [])
  ++ (if strTruthy obj.input then
        [(pfx ++ TOOL_CALL_FUNCTION_ARGUMENTS_JSON,
          .s (safeSerialize (.objJ [("input", .strJ obj.input)])))]
      else [])

/-- A `Responses.ResponseOutputItem`: a message, a function tool call, a
custom tool call, or one of the presently-unsupported kinds (all skipped
by the mapper). -/
inductive OutputItem where
  | message (m : OutputMessage) : OutputItem
  | functionCall (c : FunctionToolCall) : OutputItem
  | customToolCall (c : CustomToolCall) : OutputItem
  | unsupportedOutput (tag : String) : OutputItem
deriving DecidableEq, Repr

/-- Loop body of `getAttributesFromResponseOutput`: message items advance
`message_index`; function-call items attach to the current
`message_index` and advance `toolCallIndex`; custom tool calls attach at
sub-index 0 and advance neither; unsupported kinds are skipped. -/
def responseOutputGo (tc : ToolCache) (traceId : Option String) :
    List OutputItem → Nat → Nat → List (String × AttrVal)
  | [], _, _ => []
  | item :: rest, mi, tci =>
    match item with
    | .message m =>
      getAttributesFromMessage m (LLM_OUTPUT_MESSAGES ++ "." ++ toString mi ++ ".")
      ++ responseOutputGo tc traceId rest (mi + 1) tci
    | .functionCall c =>
      ([(LLM_OUTPUT_MESSAGES ++ "." ++ toString mi ++ "." ++ MESSAGE_ROLE, .s "assistant")]
       ++ getAttributesFromFunctionToolCall tc c traceId
            (LLM_OUTPUT_MESSAGES ++ "." ++ toString mi ++ "." ++ MESSAGE_TOOL_CALLS ++ "."
              ++ toString tci ++ "."))
      ++ responseOutputGo tc traceId rest mi (tci + 1)
    | .customToolCall c =>
      ([(LLM_OUTPUT_MESSAGES ++ "." ++ toString mi ++ "." ++ MESSAGE_ROLE, .s "assistant")]
       ++ getAttributesFromResponseCustomToolCall c
            (LLM_OUTPUT_MESSAGES ++ "." ++ toString mi ++ "." ++ MESSAGE_TOOL_CALLS ++ ".0."))
      ++ responseOutputGo tc traceId rest mi tci
    | .unsupportedOutput _ => responseOutputGo tc traceId rest mi tci

/-- `getAttributesFromResponseOutput(obj, traceId, message_index)`;
`toolCallIndex` starts at 0. -/
def getAttributesFromResponseOutput (tc : ToolCache) (obj : List OutputItem)
    (traceId : Option String) (message_index : Nat := 0) : List (String × AttrVal) :=
  responseOutputGo tc traceId obj message_index 0

/-- The object serialized by the tool-schema mapper:
`\x7btype: "function", function: \x7bname, ...(description when truthy),
parameters, strict\x7d\x7d`. -/
def toolSchemaJson (name : String) (description : Option String)
    (parameters : Json) (strict : Option Bool) : Json :=
  .objJ [("type", .strJ "function"),
         ("function", .objJ
           ([("name", .strJ name)]
            ++ (if optStrTruthy description then
                  [("description", .strJ (description.getD ""))]
                else [])
            ++ [("parameters", parameters),
                ("strict", match strict with | some b => .boolJ b | none => .nullJ)]))]

/-- Loop body of `getAttributesFromTools` over `tools.entries()`: only
function-type tools emit; every tool consumes an index. -/
def toolsGo : List ResponseTool → Nat → List (String × AttrVal)
  | [], _ => []
  | tool :: rest, index =>
    (match tool with
     | .functionTool name description parameters strict =>
       [(LLM_TOOLS ++ "." ++ toString index ++ "." ++ TOOL_JSON_SCHEMA,
         .s (safeSerialize (toolSchemaJson name description parameters strict)))]
     | _ => [])
    ++ toolsGo rest (index + 1)

/-- `getAttributesFromTools(tools)`: `null` and the empty list emit
nothing. -/
def getAttributesFromTools (tools : Option (List ResponseTool)) :
    List (String × AttrVal) :=
  match tools with
  | none => []
  | some ts => if ts.isEmpty then [] else toolsGo ts 0

/-- `getAttributesFromResponseInstruction(instructions)`: a non-null,
non-empty instructions string becomes a synthesized system message at
input-message index 0. -/
def getAttributesFromResponseInstruction (instructions : Option String) :
    List (String × AttrVal) :=
  match instructions with
  | none => []
  | some ins =>
    if ins == "" then []
    else
      [(LLM_INPUT_MESSAGES ++ ".0." ++ MESSAGE_ROLE, .s ROLE_SYSTEM),
       (LLM_INPUT_MESSAGES ++ ".0." ++ MESSAGE_CONTENT, .s ins)]

/-- `Responses.ResponseUsage.input_tokens_details`. -/
structure InputTokensDetails where
  cached_tokens : Int
deriving DecidableEq, Repr

/-- `Responses.ResponseUsage.output_tokens_details`. -/
structure OutputTokensDetails where
  reasoning_tokens : Int
deriving DecidableEq, Repr

/-- A `Responses.ResponseUsage` (all counters required, with detail
sub-objects). -/
structure ResponseUsage where
  input_tokens : Int
  output_tokens : Int
  total_tokens : Int
  input_tokens_details : InputTokensDetails
  output_tokens_details : OutputTokensDetails
deriving DecidableEq, Repr

/-- `getAttributesFromUsage(obj)`: a non-null response-style usage record
unconditionally emits all five counters, zeros included. -/
def getAttributesFromUsage (obj : Option ResponseUsage) : List (String × AttrVal) :=
  match obj with
  | none => []
  | some u =>
    [(LLM_TOKEN_COUNT_COMPLETION, .i u.output_tokens),
     (LLM_TOKEN_COUNT_PROMPT, .i u.input_tokens),
     (LLM_TOKEN_COUNT_TOTAL, .i u.total_tokens),
     (LLM_TOKEN_COUNT_PROMPT_DETAILS_CACHE_READ, .i u.input_tokens_details.cached_tokens),
     (LLM_TOKEN_COUNT_COMPLETION_DETAILS_REASONING, .i u.output_tokens_details.reasoning_tokens)]

/-- A legacy chat-completions usage record (duck-typed; fields may be
absent). -/
structure ChatUsage where
  input_tokens : Option Int := none
  output_tokens : Option Int := none
deriving DecidableEq, Repr

/-- `getAttributesFromChatCompletionsUsage(obj)`: each legacy counter is
emitted only when present and strictly positive — zero counters are
suppressed. -/
def getAttributesFromChatCompletionsUsage (obj : Option ChatUsage) :
    List (String × AttrVal) :=
  match obj with
  | none => []
  | some u =>
    (match u.input_tokens with
     | some n => if n > 0 then [(LLM_TOKEN_COUNT_PROMPT, .i n)] else []
     | none => [])
    ++ (match u.output_tokens with
        | some n => if n > 0 then [(LLM_TOKEN_COUNT_COMPLETION, .i n)] else []
        | none => [])

/-- Message content as found on input messages: a plain string, a list of
typed parts, or some other shape (ignored by the mapper). -/
inductive MsgContent where
  | strC (s : String) : MsgContent
  | listC (items : List ContentItem) : MsgContent
  | otherC : MsgContent
deriving DecidableEq, Repr

/-- `getAttributesFromMessageParam(obj, prefix)`: role always; string
content verbatim; list content via the content-list mapper. -/
def getAttributesFromMessageParam (role : String) (content : Option MsgContent)
    (pfx : String := "") : List (String × AttrVal) :=
  [(pfx ++ MESSAGE_ROLE, .s role)]
  ++ (match content with
      | some (.strC s) => [(pfx ++ MESSAGE_CONTENT, .s s)]
      | some (.listC items) => getAttributesFromMessageContentList items pfx
      | some .otherC => []
      | none => [])

/-- `getAttributesFromFunctionCallOutput(obj, prefix)`. -/
def getAttributesFromFunctionCallOutput (call_id output : String)
    (pfx : String := "") : List (String × AttrVal) :=
  [(pfx ++ MESSAGE_ROLE, .s ROLE_TOOL),
   (pfx ++ MESSAGE_TOOL_CALL_ID, .s call_id),
   (pfx ++ MESSAGE_CONTENT, .s output)]

/-- `getAttributesFromResponseCustomToolCallOutputParam(obj, prefix)`. -/
def getAttributesFromResponseCustomToolCallOutputParam (call_id output : String)
    (pfx : String := "") : List (String × AttrVal) :=
  [(pfx ++ MESSAGE_ROLE, .s ROLE_TOOL)]
  ++ (if strTruthy call_id then [(pfx ++ MESSAGE_TOOL_CALL_ID, .s call_id)] else [])
  ++ (if strTruthy output then [(pfx ++ MESSAGE_CONTENT, .s output)] else [])

/-- A `ResponseInputItem` as dispatched by `getAttributesFromInput`:
type-less items with role+content, typed messages, function calls and
their outputs, `function_call_result` variants, custom tool calls and
outputs, and the presently-unsupported kinds. -/
inductive InputItem where
  | roleContentOnly (role : String) (content : MsgContent) : InputItem
  | plainOther : InputItem
  | message (role : String) (content : MsgContent) : InputItem
  | functionCall (c : FunctionToolCall) : InputItem
  | functionCallOutput (call_id : String) (output : String) : InputItem
  | functionCallResult (callId : Option String) (output : Option Json) : InputItem
  | customToolCall (c : CustomToolCall) : InputItem
  | customToolCallOutput (call_id : String) (output : String) : InputItem
  | unsupportedInput (tag : String) : InputItem

/-- The `function_call_result` normalization: tool role, the call id when
a truthy string, and content from a string output, an object output's
`text` field, or the serialized object. -/
def functionCallResultAttrs (callId : Option String) (output : Option Json)
    (pfx : String) : List (String × AttrVal) :=
  [(pfx ++ MESSAGE_ROLE, .s ROLE_TOOL)]
  ++ (if optStrTruthy callId then
        [(pfx ++ MESSAGE_TOOL_CALL_ID, .s (callId.getD ""))]
      else [])
  ++ (match output with
      | some (.strJ s) => [(pfx ++ MESSAGE_CONTENT, .s s)]
      | some (.objJ fs) =>
        (match jsonObjGet (.objJ fs) "text" with
         | some (.strJ t) => [(pfx ++ MESSAGE_CONTENT, .s t)]
         | _ => [(pfx ++ MESSAGE_CONTENT, .s (safeSerialize (.objJ fs)))])
      | some (.arrJ xs) =>
        -- typeof array is "object" and arrays have no string `text` field
        [(pfx ++ MESSAGE_CONTENT, .s (safeSerialize (.arrJ xs)))]
      | _ => [])

/-- Loop body of `getAttributesFromInput`: the input-message index
advances for every item, including unhandled ones. -/
def inputGo (tc : ToolCache) (traceId : Option String) :
    List InputItem → Nat → List (String × AttrVal)
  | [], _ => []
  | item :: rest, i =>
    (match item with
     | .roleContentOnly role content =>
       getAttributesFromMessageParam role (some content)
         (LLM_INPUT_MESSAGES ++ "." ++ toString i ++ ".")
     | .plainOther => []
     | .message role content =>
       getAttributesFromMessageParam role (some content)
         (LLM_INPUT_MESSAGES ++ "." ++ toString i ++ ".")
     | .functionCall c =>
       [(LLM_INPUT_MESSAGES ++ "." ++ toString i ++ "." ++ MESSAGE_ROLE, .s "assistant")]
       ++ getAttributesFromFunctionToolCall tc c traceId
            (LLM_INPUT_MESSAGES ++ "." ++ toString i ++ "." ++ MESSAGE_TOOL_CALLS ++ ".0.")
     | .functionCallOutput call_id output =>
       getAttributesFromFunctionCallOutput call_id output
         (LLM_INPUT_MESSAGES ++ "." ++ toString i ++ ".")
     | .functionCallResult callId output =>
       functionCallResultAttrs callId output
         (LLM_INPUT_MESSAGES ++ "." ++ toString i ++ ".")
     | .customToolCall c =>
       [(LLM_INPUT_MESSAGES ++ "." ++ toString i ++ "." ++ MESSAGE_ROLE, .s "assistant")]
       ++ getAttributesFromResponseCustomToolCall c
            (LLM_INPUT_MESSAGES ++ "." ++ toString i ++ "." ++ MESSAGE_TOOL_CALLS ++ ".0.")
     | .customToolCallOutput call_id output =>
       getAttributesFromResponseCustomToolCallOutputParam call_id output
         (LLM_INPUT_MESSAGES ++ "." ++ toString i ++ ".")
     | .unsupportedInput _ => [])
    ++ inputGo tc traceId rest (i + 1)

/-- `getAttributesFromInput(obj, traceId, message_index)`; the default
start index is 1, reserving slot 0 for the synthesized instructions
message. -/
def getAttributesFromInput (tc : ToolCache) (obj : List InputItem)
    (traceId : Option String) (message_index : Nat := 1) : List (String × AttrVal) :=
  inputGo tc traceId obj message_index

/-! Chat-completions ("generation") family. -/

/-- `message.content` on a legacy chat message: a string, an array of raw
content parts, or some other raw value (carried for serialization). -/
inductive ChatContentVal where
  | strV (s : String) : ChatContentVal
  | arrV (items : List Json) : ChatContentVal
  | otherV (raw : Json) : ChatContentVal

/-- `tool_call.function` on a legacy tool call (duck-typed fields). -/
structure ChatToolCallFunction where
  name : Option String := none
  arguments : Option String := none

/-- A legacy chat-completions tool call (duck-typed fields). -/
structure ChatToolCall where
  id : Option String := none
  func : Option ChatToolCallFunction := none

/-- A legacy chat-completions message (duck-typed fields). -/
structure ChatMessage where
  role : Option String := none
  content : Option ChatContentVal := none
  tool_call_id : Option String := none
  tool_calls : Option (List ChatToolCall) := none

/-- `getAttributesFromChatCompletionsToolCallDict(obj, prefix)`: id,
function name and function arguments are each emitted only when present;
arguments are additionally suppressed when exactly the two-character
empty-object literal. -/
def getAttributesFromChatCompletionsToolCallDict (obj : ChatToolCall)
    (pfx : String := "") : List (String × AttrVal) :=
  (match obj.id with
   | some v => [(pfx ++ TOOL_CALL_ID, .s v)]
   | none => [])
  ++ (match obj.func with
      | some f =>
        (match f.name with
         | some n => [(pfx ++ TOOL_CALL_FUNCTION_NAME, .s n)]
         | none => [])
        ++ (match f.arguments with
            | some a =>
              if a != EMPTY_OBJECT_LITERAL then
                [(pfx ++ TOOL_CALL_FUNCTION_ARGUMENTS_JSON, .s a)]
              else []
            | none => [])
      | none => [])

/-- Attribute-value coercion for raw JSON content fields (the source
passes the raw JS value through as an OpenTelemetry attribute value). -/
def jsonToAttr : Json → AttrVal
  | .strJ s => .s s
  | .numJ n => .i n
  | .boolJ b => .b b
  | j => .s (safeSerialize j)

/-- `getAttributesFromChatCompletionsMessageContentItem(obj, prefix)`:
emits type/text when `obj.type` is truthy and `obj.text` is neither null
nor undefined. -/
def getAttributesFromChatCompletionsMessageContentItem (obj : Json)
    (pfx : String := "") : List (String × AttrVal) :=
  let ty := jsonObjGet obj "type"
  let tx := jsonObjGet obj "text"
  if (match ty with | some t => jsonTruthy t | none => false)
      && (match tx with | some .nullJ => false | some _ => true | none => false) then
    [(pfx ++ "message_content.type", jsonToAttr (ty.getD .nullJ)),
     (pfx ++ "message_content.text", jsonToAttr (tx.getD .nullJ))]
  else []

/-- Loop body over a content array (non-objects are skipped but consume
an index; `typeof null` is "object" in JS, and a null item would make the
source throw on property access — null items are outside the modelled
domain). -/
def chatContentArrGo (pfx : String) : List Json → Nat → List (String × AttrVal)
  | [], _ => []
  | item :: rest, index =>
    (match item with
     | .objJ fs =>
       getAttributesFromChatCompletionsMessageContentItem (.objJ fs)
         (pfx ++ MESSAGE_CONTENTS ++ "." ++ toString index ++ ".")
     | .arrJ xs =>
       getAttributesFromChatCompletionsMessageContentItem (.arrJ xs)
         (pfx ++ MESSAGE_CONTENTS ++ "." ++ toString index ++ ".")
     | _ => [])
    ++ chatContentArrGo pfx rest (index + 1)

/-- `getAttributesFromChatCompletionsMessageContent(obj, prefix)`. -/
def getAttributesFromChatCompletionsMessageContent (obj : Option ChatContentVal)
    (pfx : String := "") : List (String × AttrVal) :=
  match obj with
  | none => []
  | some (.strV s) => [(pfx ++ MESSAGE_CONTENT, .s s)]
  | some (.arrV items) => chatContentArrGo pfx items 0
  | some (.otherV _) => []

/-- Inner loop of `getAttributesFromChatCompletionsMessageDicts` over one
message's tool calls (the tool-call index is threaded across messages). -/
def chatToolCallsGo (pfx : String) (mi : Nat) :
    List ChatToolCall → Nat → List (String × AttrVal) × Nat
  | [], tci => ([], tci)
  | tool_call :: rest, tci =>
    let here := getAttributesFromChatCompletionsToolCallDict tool_call
      (pfx ++ toString mi ++ "." ++ MESSAGE_TOOL_CALLS ++ "." ++ toString tci ++ ".")
    let (more, tci') := chatToolCallsGo pfx mi rest (tci + 1)
    (here ++ more, tci')

/-- Loop body of `getAttributesFromChatCompletionsMessageDicts`: the
message index advances per message; the tool-call index is shared across
all messages of the list. -/
def chatMessageDictsGo (pfx : String) :
    List ChatMessage → Nat → Nat → List (String × AttrVal)
  | [], _, _ => []
  | message :: rest, mi, tci =>
    let roleAttrs := match message.role with
      | some r => [(pfx ++ toString mi ++ "." ++ MESSAGE_ROLE, .s r)]
      | none => []
    let contentAttrs := match message.content with
      | some (.strV s) =>
        getAttributesFromChatCompletionsMessageContent (some (.strV s))
          (pfx ++ toString mi ++ ".")
      | _ => []  -- guard: `typeof message.content === "string"`
    let tcidAttrs := match message.tool_call_id with
      | some v => [(pfx ++ toString mi ++ "." ++ MESSAGE_TOOL_CALL_ID, .s v)]
      | none => []
    let (toolCallAttrs, tci') := match message.tool_calls with
      | some calls => chatToolCallsGo pfx mi calls tci
      | none => ([], tci)
    roleAttrs ++ contentAttrs ++ tcidAttrs ++ toolCallAttrs
      ++ chatMessageDictsGo pfx rest (mi + 1) tci'

/-- `getAttributesFromChatCompletionsMessageDicts(obj, prefix,
message_index, tool_call_index)`. -/
def getAttributesFromChatCompletionsMessageDicts (obj : List ChatMessage)
    (pfx : String := "") (message_index : Nat := 0) (tool_call_index : Nat := 0) :
    List (String × AttrVal) :=
  chatMessageDictsGo pfx obj message_index tool_call_index

/-- Canonical JSON reconstruction of a legacy tool call (for the
raw-payload serialization). -/
def chatToolCallToJson (c : ChatToolCall) : Json :=
  .objJ ((match c.id with | some v => [("id", Json.strJ v)] | none => [])
    ++ (match c.func with
        | some f =>
          [("function", Json.objJ
            ((match f.name with | some n => [("name", Json.strJ n)] | none => [])
             ++ (match f.arguments with
                 | some a => [("arguments", Json.strJ a)]
                 | none => [])))]
        | none => []))

/-- Canonical JSON reconstruction of a legacy chat message. -/
def chatMessageToJson (m : ChatMessage) : Json :=
  .objJ ((match m.role with | some r => [("role", Json.strJ r)] | none => [])
    ++ (match m.content with
        | some (.strV s) => [("content", Json.strJ s)]
        | some (.arrV xs) => [("content", Json.arrJ xs)]
        | some (.otherV j) => [("content", j)]
        | none => [])
    ++ (match m.tool_call_id with
        | some v => [("tool_call_id", Json.strJ v)]
        | none => [])
    ++ (match m.tool_calls with
        | some cs => [("tool_calls", Json.arrJ (cs.map chatToolCallToJson))]
        | none => []))

/-- `getAttributesFromChatCompletionsInput(obj)`. -/
def getAttributesFromChatCompletionsInput (obj : Option (List ChatMessage)) :
    List (String × AttrVal) :=
  match obj with
  | none => []
  | some msgs =>
    if msgs.isEmpty then []
    else
      [(INPUT_VALUE, .s (safeSerialize (.arrJ (msgs.map chatMessageToJson)))),
       (INPUT_MIME_TYPE, .s MIME_TYPE_JSON)]
      ++ getAttributesFromChatCompletionsMessageDicts msgs (LLM_INPUT_MESSAGES ++ ".")

/-- `getAttributesFromChatCompletionsOutput(obj)`. -/
def getAttributesFromChatCompletionsOutput (obj : Option (List ChatMessage)) :
    List (String × AttrVal) :=
  match obj with
  | none => []
  | some msgs =>
    if msgs.isEmpty then []
    else
      [(OUTPUT_VALUE, .s (safeSerialize (.arrJ (msgs.map chatMessageToJson)))),
       (OUTPUT_MIME_TYPE, .s MIME_TYPE_JSON)]
      ++ getAttributesFromChatCompletionsMessageDicts msgs (LLM_OUTPUT_MESSAGES ++ ".")

/-- A raw "generation" span-data record (duck-typed fields). -/
structure GenerationData where
  model : Option String := none
  model_config : Option (List (String × Json)) := none
  input : Option (List ChatMessage) := none
  output : Option (List ChatMessage) := none
  usage : Option ChatUsage := none

/-- Whether a string contains `"api.openai.com"`. -/
def containsOpenAIHost (u : String) : Bool :=
  (u.splitOn "api.openai.com").length > 1

/-- `getAttributesFromGenerationSpanData(obj)`. -/
def getAttributesFromGenerationSpanData (obj : GenerationData) :
    List (String × AttrVal) :=
  (match obj.model with
   | some m => [(LLM_MODEL_NAME, .s m)]
   | none => [])
  ++ (match obj.model_config with
      | some cfg =>
        let params := cfg.filter (fun kv => !(match kv.2 with | .nullJ => true | _ => false))
        if params.isEmpty then []
        else
          [(LLM_INVOCATION_PARAMETERS, .s (safeSerialize (.objJ params)))]
          ++ (match mapGet params "base_url" with
              | some (.strJ u) =>
                if containsOpenAIHost u then [(LLM_PROVIDER, .s LLM_PROVIDER_OPENAI)]
                else []
              | _ => [])
      | none => [])
  ++ getAttributesFromChatCompletionsInput obj.input
  ++ getAttributesFromChatCompletionsOutput obj.output
  ++ getAttributesFromChatCompletionsUsage obj.usage

/-- A `Responses.Response`, restricted to the fields the mapper touches.
`extraParams` holds the remaining top-level fields (those other than
`object`/`tools`/`usage`/`output`/`error`/`status` and the modelled
`instructions`/`model`), in object order. -/
structure ResponseObj where
  tools : List ResponseTool
  usage : Option ResponseUsage
  output : List OutputItem
  instructions : Option String
  model : String
  extraParams : List (String × Json) := []

/-- The invocation-parameter filter: drop null, blank-trimming strings and
empty plain objects; keep everything else (empty arrays included). -/
def jsParamKeep : Json → Bool
  | .nullJ => false
  | .strJ s => !(s.trim == "")
  | .objJ fs => !fs.isEmpty
  | _ => true

/-- `getAttributesFromResponse(obj, traceId)`: tool schemas, then (as the
generator reaches that point) the per-trace tool cache is extended with
every named declared tool, then usage, output items (which consult the
just-updated cache), a synthesized system message from `instructions`,
the model name, and the filtered rest-parameters serialization.  Returns
the attributes and the updated tool cache. -/
def getAttributesFromResponse (tc : ToolCache) (obj : ResponseObj)
    (traceId : Option String) : List (String × AttrVal) × ToolCache :=
  let toolAttrs := getAttributesFromTools (some obj.tools)
  let tc' := match traceId with
    | some tid =>
      if strTruthy tid then
        mapSet tc tid
          (obj.tools.foldl
            (fun acc tool =>
              match toolName? tool with
              | some n => mapSet acc n tool
              | none => acc)
            ((mapGet tc tid).getD []))
      else tc
    | none => tc
  let usageAttrs := getAttributesFromUsage obj.usage
  let outputAttrs := getAttributesFromResponseOutput tc' obj.output traceId
  let instrAttrs := getAttributesFromResponseInstruction obj.instructions
  let parameters : List (String × Json) :=
    (match obj.instructions with
     | some ins => [("instructions", Json.strJ ins)]
     | none => [])
    ++ [("model", Json.strJ obj.model)]
    ++ obj.extraParams
  let filtered := parameters.filter (fun kv => jsParamKeep kv.2)
  let paramAttrs :=
    if filtered.isEmpty then []
    else [(LLM_INVOCATION_PARAMETERS, .s (safeSerialize (.objJ filtered)))]
  (toolAttrs ++ usageAttrs ++ outputAttrs ++ instrAttrs
    ++ [(LLM_MODEL_NAME, .s obj.model)] ++ paramAttrs, tc')

/-- `convertToPrimitive(value)`: primitives pass through; arrays and
plain objects are serialized; other values go through `String(...)`
(binary buffer values are outside the modelled value domain). -/
def convertToPrimitive : Json → AttrVal
  | .boolJ b => .b b
  | .strJ s => .s s
  | .numJ n => .i n
  | .arrJ xs => .s (safeSerialize (.arrJ xs))
  | .objJ fs => .s (safeSerialize (.objJ fs))
  | .nullJ => .s "null"

/-- `getAttributesFromFunctionSpanData(obj, traceId)`. -/
def getAttributesFromFunctionSpanData (tc : ToolCache) (name : String)
    (input : Option String) (output : Option Json) (traceId : Option String) :
    List (String × AttrVal) :=
  (match toolCacheLookup tc traceId name with
   | some tool =>
     [(TOOL_NAME, .s ((toolName? tool).getD "")),
      (TOOL_DESCRIPTION, .s ((toolDescription tool).getD ""))]
     ++ (match toolParameters tool with
         | some p => [(TOOL_PARAMETERS, .s (safeSerialize p))]
         | none => [])
   | none => [])
  ++ [(TOOL_NAME, .s name)]
  ++ (match input with
      | some inp =>
        if strTruthy inp then
          [(INPUT_VALUE, .s inp), (INPUT_MIME_TYPE, .s MIME_TYPE_JSON)]
        else []
      | none => [])
  ++ (match output with
      | none => []
      | some .nullJ => []
      | some out =>
        [(OUTPUT_VALUE, convertToPrimitive out)]
        ++ (match out with
            | .strJ s =>
              if s.length > 1 && s.startsWith "\x7b" && s.endsWith "\x7d" then
                [(OUTPUT_MIME_TYPE, .s MIME_TYPE_JSON)]
              else []
            | _ => []))

/-- `getAttributesFromMCPListToolSpanData(obj)`. -/
def getAttributesFromMCPListToolSpanData (result : Json) : List (String × AttrVal) :=
  [(OUTPUT_VALUE, .s (safeSerialize result)),
   (OUTPUT_MIME_TYPE, .s MIME_TYPE_JSON)]

/-! Canonical JSON reconstructions of the modelled payloads, used where
the source calls `JSON.stringify` on the raw framework object. -/

/-- Content part to JSON. -/
def contentItemToJson : ContentItem → Json
  | .inputText t => .objJ [("type", .strJ "input_text"), ("text", .strJ t)]
  | .outputText t => .objJ [("type", .strJ "output_text"), ("text", .strJ t)]
  | .inputImage => .objJ [("type", .strJ "input_image")]
  | .inputFile => .objJ [("type", .strJ "input_file")]
  | .refusalItem r => .objJ [("type", .strJ "refusal"), ("refusal", .strJ r)]
  | .otherContent tag => .objJ [("type", .strJ tag)]

/-- Message content to JSON. -/
def msgContentToJson : MsgContent → Json
  | .strC s => .strJ s
  | .listC items => .arrJ (items.map contentItemToJson)
  | .otherC => .nullJ

/-- Output item to JSON. -/
def outputItemToJson : OutputItem → Json
  | .message m =>
    .objJ [("type", .strJ "message"), ("role", .strJ m.role),
           ("content", .arrJ (m.content.map contentItemToJson))]
  | .functionCall c =>
    .objJ [("type", .strJ "function_call"), ("call_id", .strJ c.call_id),
           ("name", .strJ c.name), ("arguments", .strJ c.arguments)]
  | .customToolCall c =>
    .objJ [("type", .strJ "custom_tool_call"), ("call_id", .strJ c.call_id),
           ("name", .strJ c.name), ("input", .strJ c.input)]
  | .unsupportedOutput tag => .objJ [("type", .strJ tag)]

/-- Input item to JSON. -/
def inputItemToJson : InputItem → Json
  | .roleContentOnly role content =>
    .objJ [("role", .strJ role), ("content", msgContentToJson content)]
  | .plainOther => .objJ []
  | .message role content =>
    .objJ [("type", .strJ "message"), ("role", .strJ role),
           ("content", msgContentToJson content)]
  | .functionCall c =>
    .objJ [("type", .strJ "function_call"), ("call_id", .strJ c.call_id),
           ("name", .strJ c.name), ("arguments", .strJ c.arguments)]
  | .functionCallOutput call_id output =>
    .objJ [("type", .strJ "function_call_output"), ("call_id", .strJ call_id),
           ("output", .strJ output)]
  | .functionCallResult callId output =>
    .objJ ([("type", .strJ "function_call_result")]
      ++ (match callId with | some c => [("callId", Json.strJ c)] | none => [])
      ++ (match output with | some j => [("output", j)] | none => []))
  | .customToolCall c =>
    .objJ [("type", .strJ "custom_tool_call"), ("call_id", .strJ c.call_id),
           ("name", .strJ c.name), ("input", .strJ c.input)]
  | .customToolCallOutput call_id output =>
    .objJ [("type", .strJ "custom_tool_call_output"), ("call_id", .strJ call_id),
           ("output", .strJ output)]
  | .unsupportedInput tag => .objJ [("type", .strJ tag)]

/-- Tool declaration to JSON. -/
def toolToJson : ResponseTool → Json
  | .functionTool n d p s =>
    .objJ ([("type", .strJ "function"), ("name", .strJ n)]
      ++ (match d with | some ds => [("description", Json.strJ ds)] | none => [])
      ++ [("parameters", p),
          ("strict", match s with | some b => Json.boolJ b | none => Json.nullJ)])
  | .customTool n d =>
    .objJ ([("type", .strJ "custom"), ("name", .strJ n)]
      ++ (match d with | some ds => [("description", Json.strJ ds)] | none => []))
  | .otherTool => .objJ [("type", .strJ "other")]

/-- Usage record to JSON. -/
def usageToJson (u : ResponseUsage) : Json :=
  .objJ [("input_tokens", .numJ u.input_tokens),
         ("output_tokens", .numJ u.output_tokens),
         ("total_tokens", .numJ u.total_tokens),
         ("input_tokens_details",
           .objJ [("cached_tokens", .numJ u.input_tokens_details.cached_tokens)]),
         ("output_tokens_details",
           .objJ [("reasoning_tokens", .numJ u.output_tokens_details.reasoning_tokens)])]

/-- Response object to JSON (reconstructed from the modelled fields). -/
def responseToJson (r : ResponseObj) : Json :=
  .objJ ([("object", .strJ "response"),
          ("tools", .arrJ (r.tools.map toolToJson))]
    ++ (match r.usage with | some u => [("usage", usageToJson u)] | none => [])
    ++ [("output", .arrJ (r.output.map outputItemToJson))]
    ++ (match r.instructions with
        | some ins => [("instructions", Json.strJ ins)]
        | none => [])
    ++ [("model", .strJ r.model)]
    ++ r.extraParams)

/-! ### The agent-trace processor (`OpenAIAgentsProcessor`) -/

/-- `span.error` on a framework span event. -/
structure SpanError where
  message : String
  data : Option Json

/-- `span._input` on a response span: a string, an input-item array, or
another shape (ignored). -/
inductive RespInputVal where
  | strI (s : String) : RespInputVal
  | arrI (items : List InputItem) : RespInputVal
  | otherI : RespInputVal

/-- `span.spanData`, discriminated by its `type` tag. -/
inductive SpanData where
  | response (resp : Option ResponseObj) (input : Option RespInputVal) : SpanData
  | generation (g : GenerationData) : SpanData
  | func (name : String) (input : Option String) (output : Option Json) : SpanData
  | mcpTools (result : Json) : SpanData
  | handoff (from_agent : Option String) (to_agent : Option String) : SpanData
  | agent (name : String) : SpanData
  | custom (name : String) : SpanData
  | guardrail (name : String) : SpanData
  | otherData (tag : String) : SpanData

/-- The `type` tag of a span-data record. -/
def spanDataType : SpanData → String
  | .response _ _ => "response"
  | .generation _ => "generation"
  | .func _ _ _ => "function"
  | .mcpTools _ => "mcp_tools"
  | .handoff _ _ => "handoff"
  | .agent _ => "agent"
  | .custom _ => "custom"
  | .guardrail _ => "guardrail"
  | .otherData tag => tag

/-- A framework span event (`Span<any>` of the agents SDK). -/
structure AgentSpanEvent where
  spanId : String
  traceId : String
  parentId : Option String := none
  startedAt : Option String := none
  endedAt : Option String := none
  error : Option SpanError := none
  spanData : SpanData

/-- `getSpanName(span)`: the string `name` field when the data carries
one, else "Handoff to \x7btarget\x7d" for handoffs that know their target,
else the raw type tag. -/
def getSpanName (sp : AgentSpanEvent) : String :=
  match sp.spanData with
  | .func n _ _ => n
  | .agent n => n
  | .custom n => n
  | .guardrail n => n
  | .handoff _ (some t) => "Handoff to " ++ t
  | d => spanDataType d

/-- `getSpanKind(span)`: the fixed type-to-kind table. -/
def getSpanKind (sp : AgentSpanEvent) : String :=
  match sp.spanData with
  | .agent _ => SPAN_KIND_AGENT
  | .func _ _ _ => SPAN_KIND_TOOL
  | .generation _ => SPAN_KIND_LLM
  | .response _ _ => SPAN_KIND_LLM
  | .handoff _ _ => SPAN_KIND_TOOL
  | .custom _ => SPAN_KIND_CHAIN
  | .guardrail _ => SPAN_KIND_CHAIN
  | _ => SPAN_KIND_CHAIN

/-- A span status. -/
inductive SpanStatusVal where
  | ok : SpanStatusVal
  | errorStatus (msg : String) : SpanStatusVal
deriving DecidableEq, Repr

/-- `getSpanStatus(span)`: error status with
"\x7bmessage\x7d: \x7bserialized data or empty\x7d" when the event
carries an error, else OK. -/
def getSpanStatus (sp : AgentSpanEvent) : SpanStatusVal :=
  match sp.error with
  | some e =>
    .errorStatus (e.message ++ ": " ++
      (match e.data with
       | some d => if jsonTruthy d then safeSerialize d else ""
       | none => ""))
  | none => .ok

/-- Operations performed on OpenTelemetry spans / stored contexts by the
processor (spans identified by allocation order). -/
inductive OtelOp where
  | startSpan (id : Nat) (name : String) (attrs : List (String × AttrVal))
      (parent : Option Nat) (startedAt : Option String) : OtelOp
  | deleteSpanCtx (tok : Nat) : OtelOp
  | updateName (id : Nat) (name : String) : OtelOp
  | setAttr (id : Nat) (key : String) (v : AttrVal) : OtelOp
  | setStatus (id : Nat) (status : SpanStatusVal) : OtelOp
  | endSpan (id : Nat) (endedAt : Option String) : OtelOp

/-- `MAX_HANDOFFS_IN_FLIGHT`. -/
def MAX_HANDOFFS_IN_FLIGHT : Nat := 1000

/-- The processor's correlation state.  `tokens` stores, per framework
span id, the context recorded at span start (modelled by the OTel span id
it carries). -/
structure ProcessorState where
  rootSpans : List (String × Nat) := []
  spanMap : List (String × Nat) := []
  tokens : List (String × Nat) := []
  toolCache : ToolCache := []
  reverseHandoffsMap : List (String × String) := []
  nextOtelId : Nat := 0

/-- The `while (size > cap) delete first key` eviction loop on the
handoff reverse-index. -/
def evictOldest : List (String × String) → Nat → List (String × String)
  | [], _ => []
  | x :: xs, cap => if (x :: xs).length > cap then evictOldest xs cap else x :: xs

/-- A framework trace event. -/
structure AgentTraceEvent where
  traceId : String
  name : String

/-- `onTraceStart(trace)`: open a root span named after the trace with
kind AGENT and register it. -/
def onTraceStart (st : ProcessorState) (tr : AgentTraceEvent) :
    ProcessorState × List OtelOp :=
  let id := st.nextOtelId
  ({ st with rootSpans := mapSet st.rootSpans tr.traceId id, nextOtelId := id + 1 },
   [.startSpan id tr.name [(OPENINFERENCE_SPAN_KIND, .s SPAN_KIND_AGENT)] none none])

/-- `onTraceEnd(trace)`: close the registered root span with OK and
discard the trace's tool cache. -/
def onTraceEnd (st : ProcessorState) (tr : AgentTraceEvent) :
    ProcessorState × List OtelOp :=
  let ops := match mapGet st.rootSpans tr.traceId with
    | some id => [OtelOp.setStatus id .ok, OtelOp.endSpan id none]
    | none => []
  ({ st with toolCache := mapDelete st.toolCache tr.traceId }, ops)

/-- `onSpanStart(span)`: a `null` `startedAt` returns immediately;
otherwise the parent is the open span for `parentId` when present, else
the trace's root span; a new child span is opened and registered in
`spanMap` and `tokens`. -/
def onSpanStart (st : ProcessorState) (sp : AgentSpanEvent) :
    ProcessorState × List OtelOp :=
  match sp.startedAt with
  | none => (st, [])
  | some t0 =>
    let parentSpan : Option Nat :=
      match sp.parentId with
      | some pid =>
        if strTruthy pid then mapGet st.spanMap pid
        else mapGet st.rootSpans sp.traceId
      | none => mapGet st.rootSpans sp.traceId
    let otelId := st.nextOtelId
    ({ st with
        spanMap := mapSet st.spanMap sp.spanId otelId,
        tokens := mapSet st.tokens sp.spanId otelId,
        nextOtelId := otelId + 1 },
     [.startSpan otelId (getSpanName sp)
        [(OPENINFERENCE_SPAN_KIND, .s (getSpanKind sp)),
         (LLM_SYSTEM, .s LLM_SYSTEM_OPENAI)]
        parentSpan (some t0)])

/-- The payload-kind dispatch of `onSpanEnd`, given the resolved OTel
span id. -/
def spanEndDispatch (st : ProcessorState) (sp : AgentSpanEvent) (otelId : Nat) :
    ProcessorState × List OtelOp :=
  match sp.spanData with
  | .response resp input =>
    let (st1, ops1) := match resp with
      | some r =>
        let (attrs, tc') := getAttributesFromResponse st.toolCache r (some sp.traceId)
        ({ st with toolCache := tc' },
         [OtelOp.setAttr otelId OUTPUT_MIME_TYPE (.s MIME_TYPE_JSON),
          OtelOp.setAttr otelId OUTPUT_VALUE (.s (safeSerialize (responseToJson r)))]
         ++ attrs.map (fun (kv : String × AttrVal) => OtelOp.setAttr otelId kv.1 kv.2))
      | none => (st, [])
    let ops2 := match input with
      | some (.strI s) => [OtelOp.setAttr otelId INPUT_VALUE (.s s)]
      | some (.arrI items) =>
        -- the source sets INPUT_VALUE to the JSON mime type and then
        -- overwrites it with the serialized array
        [OtelOp.setAttr otelId INPUT_VALUE (.s MIME_TYPE_JSON),
         OtelOp.setAttr otelId INPUT_VALUE
           (.s (safeSerialize (.arrJ (items.map inputItemToJson))))]
        ++ (getAttributesFromInput st1.toolCache items (some sp.traceId)).map
             (fun (kv : String × AttrVal) => OtelOp.setAttr otelId kv.1 kv.2)
      | some .otherI => []
      | none => []
    (st1, ops1 ++ ops2)
  | .generation g =>
    (st, (getAttributesFromGenerationSpanData g).map
      (fun kv => OtelOp.setAttr otelId kv.1 kv.2))
  | .func name input output =>
    (st, (getAttributesFromFunctionSpanData st.toolCache name input output
            (some sp.traceId)).map
      (fun kv => OtelOp.setAttr otelId kv.1 kv.2))
  | .mcpTools result =>
    (st, (getAttributesFromMCPListToolSpanData result).map
      (fun kv => OtelOp.setAttr otelId kv.1 kv.2))
  | .handoff from_agent to_agent =>
    (match from_agent, to_agent with
     | some fa, some ta =>
       let key := ta ++ ":" ++ sp.traceId
       ({ st with reverseHandoffsMap :=
            evictOldest (mapSet st.reverseHandoffsMap key fa) MAX_HANDOFFS_IN_FLIGHT },
        [])
     | _, _ => (st, []))
  | .agent name =>
    let key := name ++ ":" ++ sp.traceId
    (st, [OtelOp.setAttr otelId GRAPH_NODE_ID (.s name)]
      ++ (match mapGet st.reverseHandoffsMap key with
          | some parentNode =>
            if strTruthy parentNode then
              [OtelOp.setAttr otelId GRAPH_NODE_PARENT_ID (.s parentNode)]
            else []
          | none => []))
  | _ => (st, [])

/-- `onSpanEnd(span)`: delete the stored context's span when one was
recorded; a span id absent from `spanMap` is a no-op; otherwise update
the name, extract attributes by payload kind, set the final status, and
end at the event's recorded end time. -/
def onSpanEnd (st : ProcessorState) (sp : AgentSpanEvent) :
    ProcessorState × List OtelOp :=
  let delOps : List OtelOp := match mapGet st.tokens sp.spanId with
    | some tok => [.deleteSpanCtx tok]
    | none => []
  match mapGet st.spanMap sp.spanId with
  | none => (st, delOps)
  | some otelId =>
    let (st', attrOps) := spanEndDispatch st sp otelId
    (st', delOps ++ [OtelOp.updateName otelId (getSpanName sp)] ++ attrOps
      ++ [OtelOp.setStatus otelId (getSpanStatus sp),
          OtelOp.endSpan otelId sp.endedAt])

/-! ### The root span post-processor (`atla_root_span_processor.ts`) -/

/-- Git provenance values captured at process start (`null` when
resolution failed). -/
structure GitInfo where
  repo : Option String := none
  branch : Option String := none
  commitHash : Option String := none
  commitMessage : Option String := none
  commitTimestamp : Option String := none
  semver : Option String := none
deriving DecidableEq, Repr

/-- The parts of an SDK span visible to the processor hook. -/
structure ProcSpanInfo where
  instrumentationScope : String
  parentSpanId : Option String := none
deriving DecidableEq, Repr

/-- Effects of the root-span processor's `onStart` on the span it was
given. -/
inductive RootSpanEffect where
  | renameScope (newName : String) : RootSpanEffect
  | setAttr (key : String) (v : AttrVal) : RootSpanEffect
deriving DecidableEq, Repr

/-- `INSTRUMENTATION_SCOPE_MAPPINGS`. -/
def INSTRUMENTATION_SCOPE_MAPPINGS : List (String × String) :=
  [("@arizeai/openinference-instrumentation-openai",
    "openinference.instrumentation.openai"),
   ("@arizeai/openinference-instrumentation-langchain",
    "openinference.instrumentation.langchain")]

/-- `renameInstrumentationScopeToOpenInferenceStandard(span)`. -/
def renameScopeEffects (scope : String) : List RootSpanEffect :=
  match mapGet INSTRUMENTATION_SCOPE_MAPPINGS scope with
  | some newScope => if strTruthy newScope then [.renameScope newScope] else []
  | none => []

/-- One git provenance attribute: stamped only when the captured value is
a truthy string (never when resolution failed, never as an empty
string). -/
def gitAttr (mark : String) (v : Option String) : List RootSpanEffect :=
  match v with
  | some s => if strTruthy s then [.setAttr mark (.s s)] else []
  | none => []

/-- JSON serialization of a metadata mapping. -/
def serializeMetadata (m : Metadata) : String :=
  safeSerialize (.objJ (m.map (fun kv => (kv.1, Json.strJ kv.2))))

/-- The six-attribute git block of `onStart` (stamped before the parent
check, hence on every span, whenever tracking is not disabled). -/
def gitProvenance (git : GitInfo) : List RootSpanEffect :=
  gitAttr GIT_REPO_MARK git.repo
  ++ gitAttr GIT_BRANCH_MARK git.branch
  ++ gitAttr GIT_COMMIT_HASH_MARK git.commitHash
  ++ gitAttr GIT_COMMIT_MESSAGE_MARK git.commitMessage
  ++ gitAttr GIT_COMMIT_TIMESTAMP_MARK git.commitTimestamp
  ++ gitAttr GIT_SEMVER_MARK git.semver

/-- The block of `onStart` that runs only after the
`if (span.parentSpanId) return` guard: the unset success sentinel, the
experiment attributes from the parent context, and the configured
metadata serialization. -/
def rootOnlyStamp (procMetadata : Option Metadata) (parentCtxAtla : Option AtlaCtx) :
    List RootSpanEffect :=
  [.setAttr SUCCESS_MARK (.i (-1))]
  ++ (match parentCtxAtla.bind (·.experiment) with
      | some e =>
        [.setAttr ENVIRONMENT_MARK (.s "dev"),
         .setAttr (EXPERIMENT_NAMESPACE ++ ".name") (.s e.name)]
        ++ (match e.description with
            | some d =>
              if strTruthy d then
                [.setAttr (EXPERIMENT_NAMESPACE ++ ".description") (.s d)]
              else []
            | none => [])
      | none => [])
  ++ (match procMetadata with
      | some m =>
        if !m.isEmpty then [.setAttr METADATA_MARK (.s (serializeMetadata m))]
        else []
      | none => [])

/-- `AtlaRootSpanProcessor.onStart(span, parentContext)`: scope renaming
first; then, unless the git-tracking opt-out environment variable is
truthy, the six git provenance attributes (each only when resolved) —
note this happens before the parent check, on every span; then the
root-only block on spans without a parent. -/
def rootSpanOnStart (envGitDisabled : Option String) (git : GitInfo)
    (procMetadata : Option Metadata) (parentCtxAtla : Option AtlaCtx)
    (span : ProcSpanInfo) : List RootSpanEffect :=
  renameScopeEffects span.instrumentationScope
  ++ (if !(optStrTruthy envGitDisabled) then gitProvenance git else [])
  ++ (if optStrTruthy span.parentSpanId then []
      else rootOnlyStamp procMetadata parentCtxAtla)

/-! ### Spec-side characterizations (from the spec's words, for the
index-continuity and index-assignment claims) -/

/-- Per the spec: the attributes a single content part contributes when
it sits at position `i` — text parts (`input_text`/`output_text`) and
refusal parts emit a type and a text attribute at `contents.\x7bi\x7d`,
image and file parts emit nothing. -/
def contentItemAttrsAt (pfx : String) (i : Nat) : ContentItem → List (String × AttrVal)
  | .inputText t =>
    [(pfx ++ MESSAGE_CONTENTS ++ "." ++ toString i ++ "." ++ MESSAGE_CONTENT_TYPE, .s "text"),
     (pfx ++ MESSAGE_CONTENTS ++ "." ++ toString i ++ "." ++ MESSAGE_CONTENT_TEXT, .s t)]
  | .outputText t =>
    [(pfx ++ MESSAGE_CONTENTS ++ "." ++ toString i ++ "." ++ MESSAGE_CONTENT_TYPE, .s "text"),
     (pfx ++ MESSAGE_CONTENTS ++ "." ++ toString i ++ "." ++ MESSAGE_CONTENT_TEXT, .s t)]
  | .refusalItem r =>
    [(pfx ++ MESSAGE_CONTENTS ++ "." ++ toString i ++ "." ++ MESSAGE_CONTENT_TYPE, .s "refusal"),
     (pfx ++ MESSAGE_CONTENTS ++ "." ++ toString i ++ "." ++ MESSAGE_CONTENT_TEXT, .s r)]
  | .inputImage => []
  | .inputFile => []
  | .otherContent _ => []

/-- Whether a response-output item is a message item. -/
def isMessageItem : OutputItem → Bool
  | .message _ => true
  | _ => false

/-- Whether a response-output item is a function-call item. -/
def isFunctionCallItem : OutputItem → Bool
  | .functionCall _ => true
  | _ => false

/-- Per the spec: the attributes a single response-output item
contributes when the current message index is `mi` and the current
tool-call index is `tci`. -/
def outputItemAttrsAt (tc : ToolCache) (traceId : Option String) (mi tci : Nat) :
    OutputItem → List (String × AttrVal)
  | .message m =>
    getAttributesFromMessage m (LLM_OUTPUT_MESSAGES ++ "." ++ toString mi ++ ".")
  | .functionCall c =>
    [(LLM_OUTPUT_MESSAGES ++ "." ++ toString mi ++ "." ++ MESSAGE_ROLE, .s "assistant")]
    ++ getAttributesFromFunctionToolCall tc c traceId
         (LLM_OUTPUT_MESSAGES ++ "." ++ toString mi ++ "." ++ MESSAGE_TOOL_CALLS ++ "."
           ++ toString tci ++ ".")
  | .customToolCall c =>
    [(LLM_OUTPUT_MESSAGES ++ "." ++ toString mi ++ "." ++ MESSAGE_ROLE, .s "assistant")]
    ++ getAttributesFromResponseCustomToolCall c
         (LLM_OUTPUT_MESSAGES ++ "." ++ toString mi ++ "." ++ MESSAGE_TOOL_CALLS ++ ".0.")
  | .unsupportedOutput _ => []

/-- Whether an attribute list emits a given key. -/
def emitsKey (out : List (String × AttrVal)) (k : String) : Bool :=
  out.any (fun kv => kv.1 == k)

/-! ## Theorems -/

/-! ### Metadata validation bounds -/

theorem truncateValue_length_le (s : String) (n : Nat) :
    (truncateValue s n).length ≤ n := by
  unfold truncateValue
  split
  · show (s.data.take n).length ≤ n
    simp [List.length_take]
  · omega

theorem jsObjSet_length_le (o : Metadata) (k v : String) :
    (jsObjSet o k v).length ≤ o.length + 1 := by
  unfold jsObjSet
  split
  · simp
  · simp

theorem jsObjSet_mem (o : Metadata) (k v : String) :
    ∀ kv ∈ jsObjSet o k v, kv ∈ o ∨ kv.1 = k := by
  unfold jsObjSet
  split
  · intro kv hkv
    rw [List.mem_map] at hkv
    obtain ⟨a, ha, hEq⟩ := hkv
    split at hEq
    · right; rw [← hEq]
    · left; rw [← hEq]; exact ha
  · intro kv hkv
    rcases List.mem_append.mp hkv with h | h
    · left; exact h
    · right; rw [List.mem_singleton] at h; rw [h]

theorem metadataTruncKeys_foldl_length (l : Metadata) :
    ∀ acc : Metadata,
      (l.foldl (fun acc kv =>
        jsObjSet acc (truncateValue kv.1 MAX_METADATA_KEY_CHARS) kv.2) acc).length ≤
      acc.length + l.length := by
  induction l with
  | nil => intro acc; simp
  | cons x xs ih =>
    intro acc
    simp only [List.foldl_cons, List.length_cons]
    have h1 := ih (jsObjSet acc (truncateValue x.1 MAX_METADATA_KEY_CHARS) x.2)
    have h2 := jsObjSet_length_le acc (truncateValue x.1 MAX_METADATA_KEY_CHARS) x.2
    omega

theorem metadataTruncKeys_foldl_keys (l : Metadata) :
    ∀ acc : Metadata, (∀ kv ∈ acc, kv.1.length ≤ MAX_METADATA_KEY_CHARS) →
      ∀ kv ∈ l.foldl (fun acc kv =>
          jsObjSet acc (truncateValue kv.1 MAX_METADATA_KEY_CHARS) kv.2) acc,
        kv.1.length ≤ MAX_METADATA_KEY_CHARS := by
  induction l with
  | nil => intro acc hacc; simpa using hacc
  | cons x xs ih =>
    intro acc hacc
    simp only [List.foldl_cons]
    refine ih _ (fun kv hkv => ?_)
    rcases jsObjSet_mem _ _ _ kv hkv with h | h
    · exact hacc kv h
    · rw [h]; exact truncateValue_length_le _ _

theorem metadataCapFields_length (e : Metadata) :
    (metadataCapFields e).length ≤ MAX_METADATA_FIELDS := by
  unfold metadataCapFields
  split
  · simp [List.length_take]
  · omega

theorem metadataTruncKeys_length (m : Metadata) :
    (metadataTruncKeys m).length ≤ m.length := by
  unfold metadataTruncKeys
  split
  · have := metadataTruncKeys_foldl_length m []
    simpa using this
  · omega

theorem metadataTruncKeys_keys (m : Metadata) :
    ∀ kv ∈ metadataTruncKeys m, kv.1.length ≤ MAX_METADATA_KEY_CHARS := by
  unfold metadataTruncKeys
  split
  · exact metadataTruncKeys_foldl_keys m [] (by simp)
  · next hAny =>
    intro kv hkv
    rw [List.any_eq_true] at hAny
    push_neg at hAny
    have := hAny kv hkv
    simpa using this

theorem metadataTruncValues_length (m : Metadata) :
    (metadataTruncValues m).length = m.length := by
  unfold metadataTruncValues
  split
  · simp
  · rfl

theorem metadataTruncValues_keys (m : Metadata) :
    ∀ kv ∈ metadataTruncValues m, ∃ kv0 ∈ m, kv.1 = kv0.1 := by
  unfold metadataTruncValues
  split
  · intro kv hkv
    rw [List.mem_map] at hkv
    obtain ⟨a, ha, hEq⟩ := hkv
    refine ⟨a, ha, ?_⟩
    split at hEq
    · rw [← hEq]
    · rw [← hEq]
  · intro kv hkv
    exact ⟨kv, hkv, rfl⟩

theorem metadataTruncValues_values (m : Metadata) :
    ∀ kv ∈ metadataTruncValues m, kv.2.length ≤ MAX_METADATA_VALUE_CHARS := by
  unfold metadataTruncValues
  split
  · intro kv hkv
    rw [List.mem_map] at hkv
    obtain ⟨a, _, hEq⟩ := hkv
    split at hEq
    · rw [← hEq]; exact truncateValue_length_le _ _
    · next hle =>
      rw [← hEq]
      omega
  · next hAny =>
    intro kv hkv
    rw [List.any_eq_true] at hAny
    push_neg at hAny
    have := hAny kv hkv
    simpa using this

/-- C2: for every input accepted by `validateMetadata` (a plain
string-to-string object; array, `null` and non-object input throw), the
returned mapping has at most `MAX_METADATA_FIELDS` (25) entries, every
key has length at most `MAX_METADATA_KEY_CHARS` (40), and every value
has length at most `MAX_METADATA_VALUE_CHARS` (100); keys and values are
strings by construction. -/
theorem validateMetadata_bounds :
    (∀ (entries out : Metadata), validateMetadata (.obj entries) = .ok out →
      out.length ≤ MAX_METADATA_FIELDS ∧
      ∀ kv ∈ out, kv.1.length ≤ MAX_METADATA_KEY_CHARS ∧
        kv.2.length ≤ MAX_METADATA_VALUE_CHARS) ∧
    validateMetadata .arr = .error "The metadata field must be a dictionary." ∧
    validateMetadata .nullVal = .error "The metadata field must be a dictionary." ∧
    validateMetadata .primitive = .error "The metadata field must be a dictionary." := by
  refine ⟨?_, rfl, rfl, rfl⟩
  intro entries out h
  have hout : out = metadataTruncValues (metadataTruncKeys (metadataCapFields entries)) := by
    simpa [validateMetadata] using h.symm
  subst hout
  refine ⟨?_, fun kv hkv => ⟨?_, metadataTruncValues_values _ kv hkv⟩⟩
  · rw [metadataTruncValues_length]
    calc (metadataTruncKeys (metadataCapFields entries)).length
        ≤ (metadataCapFields entries).length := metadataTruncKeys_length _
      _ ≤ MAX_METADATA_FIELDS := metadataCapFields_length _
  · obtain ⟨kv0, hkv0, hEq⟩ := metadataTruncValues_keys _ kv hkv
    rw [hEq]
    exact metadataTruncKeys_keys _ kv0 hkv0

/-- C2 witness: a concrete in-bounds metadata object passes through and
satisfies all three bounds. -/
theorem validateMetadata_bounds_witness :
    ([("environment", "dev")] : Metadata).length ≤ MAX_METADATA_FIELDS ∧
    ∀ kv ∈ ([("environment", "dev")] : Metadata),
      kv.1.length ≤ MAX_METADATA_KEY_CHARS ∧
      kv.2.length ≤ MAX_METADATA_VALUE_CHARS :=
  validateMetadata_bounds.1 [("environment", "dev")] [("environment", "dev")] rfl

/-! ### Content-list index continuity -/

theorem messageContentListGo_enumFrom (pfx : String) (l : List ContentItem) :
    ∀ i : Nat, messageContentListGo pfx l i =
      (List.enumFrom i l).flatMap (fun p => contentItemAttrsAt pfx p.1 p.2) := by
  induction l with
  | nil => intro i; rfl
  | cons x xs ih =>
    intro i
    have hcons : List.enumFrom i (x :: xs) = (i, x) :: List.enumFrom (i + 1) xs := rfl
    rw [hcons, List.flatMap_cons, ← ih (i + 1)]
    cases x <;> rfl

/-- C3: `getAttributesFromMessageContentList` emits, for the item at
every list position `i`, exactly the per-item attributes at index `i`
(text and refusal items a type/text pair, image and file items nothing),
so the position index advances by one for every item including skipped
ones; in particular `[text, image, file, text]` puts its two text items
at indices 0 and 3. -/
theorem getAttributesFromMessageContentList_spec :
    (∀ (obj : List ContentItem) (pfx : String),
      getAttributesFromMessageContentList obj pfx =
        obj.enum.flatMap (fun p => contentItemAttrsAt pfx p.1 p.2)) ∧
    (∀ (pfx s1 s2 : String),
      getAttributesFromMessageContentList
          [.inputText s1, .inputImage, .inputFile, .inputText s2] pfx =
        [(pfx ++ MESSAGE_CONTENTS ++ "." ++ toString 0 ++ "." ++ MESSAGE_CONTENT_TYPE,
          .s "text"),
         (pfx ++ MESSAGE_CONTENTS ++ "." ++ toString 0 ++ "." ++ MESSAGE_CONTENT_TEXT,
          .s s1),
         (pfx ++ MESSAGE_CONTENTS ++ "." ++ toString 3 ++ "." ++ MESSAGE_CONTENT_TYPE,
          .s "text"),
         (pfx ++ MESSAGE_CONTENTS ++ "." ++ toString 3 ++ "." ++ MESSAGE_CONTENT_TEXT,
          .s s2)]) := by
  constructor
  · intro obj pfx
    exact messageContentListGo_enumFrom pfx obj 0
  · intro pfx s1 s2
    rfl

/-! ### Response-output message / tool-call index assignment -/

theorem responseOutputGo_spec (tc : ToolCache) (traceId : Option String)
    (l : List OutputItem) :
    ∀ mi tci : Nat, responseOutputGo tc traceId l mi tci =
      (List.range l.length).flatMap (fun j =>
        outputItemAttrsAt tc traceId
          (mi + (l.take j).countP isMessageItem)
          (tci + (l.take j).countP isFunctionCallItem)
          (l.getD j (.unsupportedOutput ""))) := by
  induction l with
  | nil => intro mi tci; rfl
  | cons x xs ih =>
    intro mi tci
    rw [List.length_cons, List.range_succ_eq_map, List.flatMap_cons]
    have hmap :
        ((List.range xs.length).map Nat.succ).flatMap (fun j =>
          outputItemAttrsAt tc traceId
            (mi + ((x :: xs).take j).countP isMessageItem)
            (tci + ((x :: xs).take j).countP isFunctionCallItem)
            ((x :: xs).getD j (.unsupportedOutput ""))) =
        (List.range xs.length).flatMap (fun j =>
          outputItemAttrsAt tc traceId
            (mi + (x :: xs.take j).countP isMessageItem)
            (tci + (x :: xs.take j).countP isFunctionCallItem)
            (xs.getD j (.unsupportedOutput ""))) := by
      simp only [List.flatMap_map, Function.comp, Nat.succ_eq_add_one]
      exact List.flatMap_congr (fun j _ => rfl)
    rw [hmap]
    cases x with
    | message m =>
      have htail :
          (List.range xs.length).flatMap (fun j =>
            outputItemAttrsAt tc traceId
              (mi + (OutputItem.message m :: xs.take j).countP isMessageItem)
              (tci + (OutputItem.message m :: xs.take j).countP isFunctionCallItem)
              (xs.getD j (.unsupportedOutput ""))) =
          (List.range xs.length).flatMap (fun j =>
            outputItemAttrsAt tc traceId
              ((mi + 1) + (xs.take j).countP isMessageItem)
              (tci + (xs.take j).countP isFunctionCallItem)
              (xs.getD j (.unsupportedOutput ""))) := by
        refine List.flatMap_congr (fun j _ => ?_)
        have e1 : mi + (OutputItem.message m :: xs.take j).countP isMessageItem =
            (mi + 1) + (xs.take j).countP isMessageItem := by
          simp [List.countP_cons, isMessageItem]
          try omega
        have e2 : tci + (OutputItem.message m :: xs.take j).countP isFunctionCallItem =
            tci + (xs.take j).countP isFunctionCallItem := by
          simp [List.countP_cons, isFunctionCallItem]
          try omega
        rw [e1, e2]
      rw [htail, ← ih (mi + 1) tci]
      rfl
    | functionCall c =>
      have htail :
          (List.range xs.length).flatMap (fun j =>
            outputItemAttrsAt tc traceId
              (mi + (OutputItem.functionCall c :: xs.take j).countP isMessageItem)
              (tci + (OutputItem.functionCall c :: xs.take j).countP isFunctionCallItem)
              (xs.getD j (.unsupportedOutput ""))) =
          (List.range xs.length).flatMap (fun j =>
            outputItemAttrsAt tc traceId
              (mi + (xs.take j).countP isMessageItem)
              ((tci + 1) + (xs.take j).countP isFunctionCallItem)
              (xs.getD j (.unsupportedOutput ""))) := by
        refine List.flatMap_congr (fun j _ => ?_)
        have e1 : mi + (OutputItem.functionCall c :: xs.take j).countP isMessageItem =
            mi + (xs.take j).countP isMessageItem := by
          simp [List.countP_cons, isMessageItem]
          try omega
        have e2 : tci + (OutputItem.functionCall c :: xs.take j).countP isFunctionCallItem =
            (tci + 1) + (xs.take j).countP isFunctionCallItem := by
          simp [List.countP_cons, isFunctionCallItem]
          try omega
        rw [e1, e2]
      rw [htail, ← ih mi (tci + 1)]
      rfl
    | customToolCall c =>
      have htail :
          (List.range xs.length).flatMap (fun j =>
            outputItemAttrsAt tc traceId
              (mi + (OutputItem.customToolCall c :: xs.take j).countP isMessageItem)
              (tci + (OutputItem.customToolCall c :: xs.take j).countP isFunctionCallItem)
              (xs.getD j (.unsupportedOutput ""))) =
          (List.range xs.length).flatMap (fun j =>
            outputItemAttrsAt tc traceId
              (mi + (xs.take j).countP isMessageItem)
              (tci + (xs.take j).countP isFunctionCallItem)
              (xs.getD j (.unsupportedOutput ""))) := by
        refine List.flatMap_congr (fun j _ => ?_)
        have e1 : mi + (OutputItem.customToolCall c :: xs.take j).countP isMessageItem =
            mi + (xs.take j).countP isMessageItem := by
          simp [List.countP_cons, isMessageItem]
          try omega
        have e2 : tci + (OutputItem.customToolCall c :: xs.take j).countP isFunctionCallItem =
            tci + (xs.take j).countP isFunctionCallItem := by
          simp [List.countP_cons, isFunctionCallItem]
          try omega
        rw [e1, e2]
      rw [htail, ← ih mi tci]
      rfl
    | unsupportedOutput tag =>
      have htail :
          (List.range xs.length).flatMap (fun j =>
            outputItemAttrsAt tc traceId
              (mi + (OutputItem.unsupportedOutput tag :: xs.take j).countP isMessageItem)
              (tci + (OutputItem.unsupportedOutput tag :: xs.take j).countP isFunctionCallItem)
              (xs.getD j (.unsupportedOutput ""))) =
          (List.range xs.length).flatMap (fun j =>
            outputItemAttrsAt tc traceId
              (mi + (xs.take j).countP isMessageItem)
              (tci + (xs.take j).countP isFunctionCallItem)
              (xs.getD j (.unsupportedOutput ""))) := by
        refine List.flatMap_congr (fun j _ => ?_)
        have e1 : mi + (OutputItem.unsupportedOutput tag :: xs.take j).countP isMessageItem =
            mi + (xs.take j).countP isMessageItem := by
          simp [List.countP_cons, isMessageItem]
          try omega
        have e2 : tci + (OutputItem.unsupportedOutput tag :: xs.take j).countP isFunctionCallItem =
            tci + (xs.take j).countP isFunctionCallItem := by
          simp [List.countP_cons, isFunctionCallItem]
          try omega
        rw [e1, e2]
      rw [htail, ← ih mi tci]
      rfl

/-- C4: in `getAttributesFromResponseOutput`, the item at list position
`j` is emitted with message index `message_index` plus the number of
message items strictly before it (so each message item advances the
index by one and function-call items leave it unchanged), and — when a
function-call item — with tool-call sub-index equal to the number of
function-call items strictly before it (starting at 0, advancing by one
per function-call item seen). -/
theorem getAttributesFromResponseOutput_spec (tc : ToolCache)
    (traceId : Option String) (obj : List OutputItem) (message_index : Nat) :
    getAttributesFromResponseOutput tc obj traceId message_index =
      (List.range obj.length).flatMap (fun j =>
        outputItemAttrsAt tc traceId
          (message_index + (obj.take j).countP isMessageItem)
          ((obj.take j).countP isFunctionCallItem)
          (obj.getD j (.unsupportedOutput ""))) := by
  have h := responseOutputGo_spec tc traceId obj message_index 0
  unfold getAttributesFromResponseOutput
  rw [h]
  exact List.flatMap_congr (fun j _ => by rw [Nat.zero_add])

/-! ### Usage counters: zero handling -/

/-- C5: a response-style usage record with `input_tokens = 0` and
`output_tokens = 0` (details present) still emits both token-count
attributes with value 0, whereas the legacy chat-completions usage
mapper with the same zero values emits neither (its output is empty). -/
theorem usage_zero_emission :
    (∀ u : ResponseUsage, u.input_tokens = 0 → u.output_tokens = 0 →
      (LLM_TOKEN_COUNT_PROMPT, AttrVal.i 0) ∈ getAttributesFromUsage (some u) ∧
      (LLM_TOKEN_COUNT_COMPLETION, AttrVal.i 0) ∈ getAttributesFromUsage (some u)) ∧
    (∀ cu : ChatUsage, cu.input_tokens = some 0 → cu.output_tokens = some 0 →
      getAttributesFromChatCompletionsUsage (some cu) = []) := by
  constructor
  · intro u h1 h2
    constructor
    · simp only [getAttributesFromUsage, h1]
      exact List.mem_cons_of_mem _ (List.mem_cons_self _ _)
    · simp only [getAttributesFromUsage, h2]
      exact List.mem_cons_self _ _
  · intro cu h1 h2
    simp [getAttributesFromChatCompletionsUsage, h1, h2]

/-- C5 witness: the concrete all-zero usage records. -/
theorem usage_zero_emission_witness :
    ((LLM_TOKEN_COUNT_PROMPT, AttrVal.i 0) ∈
        getAttributesFromUsage (some ⟨0, 0, 0, ⟨0⟩, ⟨0⟩⟩) ∧
      (LLM_TOKEN_COUNT_COMPLETION, AttrVal.i 0) ∈
        getAttributesFromUsage (some ⟨0, 0, 0, ⟨0⟩, ⟨0⟩⟩)) ∧
    getAttributesFromChatCompletionsUsage (some ⟨some 0, some 0⟩) = [] :=
  ⟨usage_zero_emission.1 ⟨0, 0, 0, ⟨0⟩, ⟨0⟩⟩ rfl rfl,
   usage_zero_emission.2 ⟨some 0, some 0⟩ rfl rfl⟩

/-! ### Tool-call argument emission -/

theorem strAppend_right_inj {p a b : String} (h : p ++ a = p ++ b) : a = b := by
  have hd := congrArg String.data h
  simp [String.data_append] at hd
  exact String.ext hd

theorem strAppend_beq_false (p a b : String) (h : a ≠ b) :
    (p ++ a == p ++ b) = false := by
  refine beq_eq_false_iff_ne.mpr (fun hEq => h (strAppend_right_inj hEq))

/-- C6: both tool-call mappers always emit the id and function-name
attributes (for the duck-typed legacy mapper: on records that carry an
id and a function name), and emit the function-arguments attribute if
and only if the arguments string is not the exact two-character literal
`"\x7b\x7d"` (other encodings, such as `"\x7b \x7d"`, are emitted). -/
theorem toolCall_arguments_emission :
    (∀ (tc : ToolCache) (obj : FunctionToolCall) (traceId : Option String)
        (pfx : String),
      (pfx ++ TOOL_CALL_ID, AttrVal.s obj.call_id) ∈
        getAttributesFromFunctionToolCall tc obj traceId pfx ∧
      (pfx ++ TOOL_CALL_FUNCTION_NAME, AttrVal.s obj.name) ∈
        getAttributesFromFunctionToolCall tc obj traceId pfx ∧
      (emitsKey (getAttributesFromFunctionToolCall tc obj traceId pfx)
          (pfx ++ TOOL_CALL_FUNCTION_ARGUMENTS_JSON) = true ↔
        obj.arguments ≠ EMPTY_OBJECT_LITERAL)) ∧
    (∀ (obj : ChatToolCall) (pfx : String) (i n a : String),
      obj.id = some i → obj.func = some ⟨some n, some a⟩ →
      (pfx ++ TOOL_CALL_ID, AttrVal.s i) ∈
        getAttributesFromChatCompletionsToolCallDict obj pfx ∧
      (pfx ++ TOOL_CALL_FUNCTION_NAME, AttrVal.s n) ∈
        getAttributesFromChatCompletionsToolCallDict obj pfx ∧
      (emitsKey (getAttributesFromChatCompletionsToolCallDict obj pfx)
          (pfx ++ TOOL_CALL_FUNCTION_ARGUMENTS_JSON) = true ↔
        a ≠ EMPTY_OBJECT_LITERAL)) := by
  have hID : ∀ pfx : String,
      (pfx ++ TOOL_CALL_ID == pfx ++ TOOL_CALL_FUNCTION_ARGUMENTS_JSON) = false :=
    fun pfx => strAppend_beq_false pfx _ _ (by decide)
  have hNAME : ∀ pfx : String,
      (pfx ++ TOOL_CALL_FUNCTION_NAME == pfx ++ TOOL_CALL_FUNCTION_ARGUMENTS_JSON) = false :=
    fun pfx => strAppend_beq_false pfx _ _ (by decide)
  have hDESC : ∀ pfx : String,
      (pfx ++ TOOL_DESCRIPTION == pfx ++ TOOL_CALL_FUNCTION_ARGUMENTS_JSON) = false :=
    fun pfx => strAppend_beq_false pfx _ _ (by decide)
  have hPARAMS : ∀ pfx : String,
      (pfx ++ TOOL_PARAMETERS == pfx ++ TOOL_CALL_FUNCTION_ARGUMENTS_JSON) = false :=
    fun pfx => strAppend_beq_false pfx _ _ (by decide)
  constructor
  · intro tc obj traceId pfx
    refine ⟨List.mem_append_left _ (List.mem_append_left _ (List.mem_cons_self _ _)),
      List.mem_append_left _ (List.mem_append_left _
        (List.mem_cons_of_mem _ (List.mem_cons_self _ _))), ?_⟩
    by_cases harg : obj.arguments = EMPTY_OBJECT_LITERAL
    · simp only [harg, ne_eq, not_true_eq_false, iff_false]
      cases hcache : toolCacheLookup tc traceId obj.name with
      | none =>
        simp [getAttributesFromFunctionToolCall, emitsKey, harg, hcache,
          hID pfx, hNAME pfx]
      | some tool =>
        cases hpar : toolParameters tool with
        | none =>
          simp [getAttributesFromFunctionToolCall, emitsKey, harg, hcache, hpar,
            hID pfx, hNAME pfx, hDESC pfx]
        | some p =>
          simp [getAttributesFromFunctionToolCall, emitsKey, harg, hcache, hpar,
            hID pfx, hNAME pfx, hDESC pfx, hPARAMS pfx]
    · simp only [ne_eq, harg, not_false_eq_true, iff_true]
      have hne : (obj.arguments != EMPTY_OBJECT_LITERAL) = true := by
        simpa using harg
      simp [getAttributesFromFunctionToolCall, emitsKey, hne]
  · intro obj pfx i n a hid hfunc
    rw [getAttributesFromChatCompletionsToolCallDict, hid, hfunc]
    refine ⟨List.mem_append_left _ (List.mem_cons_self _ _), ?_, ?_⟩
    · refine List.mem_append_right _ ?_
      exact List.mem_append_left _ (List.mem_cons_self _ _)
    · by_cases harg : a = EMPTY_OBJECT_LITERAL
      · simp [emitsKey, harg, hID pfx, hNAME pfx]
      · have hne : (a != EMPTY_OBJECT_LITERAL) = true := by simpa using harg
        simp [emitsKey, hne, harg]

/-- C6 witness: concrete tool calls whose arguments are the
three-character string `"\x7b \x7d"` — semantically an empty object, but
still emitted because only the exact two-character literal is
suppressed. -/
theorem toolCall_arguments_emission_witness :
    (("" ++ TOOL_CALL_ID, AttrVal.s "call1") ∈
        getAttributesFromFunctionToolCall [] ⟨"call1", "fn", "\x7b \x7d"⟩ none "" ∧
      ("" ++ TOOL_CALL_FUNCTION_NAME, AttrVal.s "fn") ∈
        getAttributesFromFunctionToolCall [] ⟨"call1", "fn", "\x7b \x7d"⟩ none "" ∧
      (emitsKey (getAttributesFromFunctionToolCall [] ⟨"call1", "fn", "\x7b \x7d"⟩ none "")
          ("" ++ TOOL_CALL_FUNCTION_ARGUMENTS_JSON) = true ↔
        ("\x7b \x7d" : String) ≠ EMPTY_OBJECT_LITERAL)) ∧
    (("" ++ TOOL_CALL_ID, AttrVal.s "id9") ∈
        getAttributesFromChatCompletionsToolCallDict
          ⟨some "id9", some ⟨some "g", some "\x7b \x7d"⟩⟩ "" ∧
      ("" ++ TOOL_CALL_FUNCTION_NAME, AttrVal.s "g") ∈
        getAttributesFromChatCompletionsToolCallDict
          ⟨some "id9", some ⟨some "g", some "\x7b \x7d"⟩⟩ "" ∧
      (emitsKey (getAttributesFromChatCompletionsToolCallDict
            ⟨some "id9", some ⟨some "g", some "\x7b \x7d"⟩⟩ "")
          ("" ++ TOOL_CALL_FUNCTION_ARGUMENTS_JSON) = true ↔
        ("\x7b \x7d" : String) ≠ EMPTY_OBJECT_LITERAL)) :=
  ⟨toolCall_arguments_emission.1 [] ⟨"call1", "fn", "\x7b \x7d"⟩ none "",
   toolCall_arguments_emission.2 ⟨some "id9", some ⟨some "g", some "\x7b \x7d"⟩⟩ ""
     "id9" "g" "\x7b \x7d" rfl rfl⟩

/-! ### Tool-schema round trip -/

/-- C7 counterexample: a function tool whose description is the defined
(not-undefined) empty string `""`.  The claim requires the serialized
schema, once JSON-parsed, to contain a `description` field; but the
mapper's truthiness test drops it: the emitted attribute is identical to
that of a tool with no description at all, and the serialized object has
no `description` field. -/
theorem toolSchema_description_counterexample :
    getAttributesFromTools
        (some [.functionTool "t" (some "") Json.nullJ (some true)]) =
      getAttributesFromTools
        (some [.functionTool "t" none Json.nullJ (some true)]) ∧
    (match jsonObjGet (toolSchemaJson "t" (some "") Json.nullJ (some true)) "function" with
     | some f => jsonObjGet f "description"
     | none => none) = none ∧
    (some "" : Option String) ≠ none := by
  refine ⟨rfl, rfl, by simp⟩

/-- C7 (amended): for a function-type tool schema, the emitted
`json_schema` attribute is exactly the JSON serialization of an object
with `type = "function"` and a nested `function` object whose `name`,
`parameters` and `strict` fields equal the inputs; the `description`
field is present if and only if the input description is truthy (defined
and non-empty) — not merely "not undefined".  Since `JSON.parse` is a
left inverse of `JSON.stringify` on JSON values (the external runtime
contract), the structural facts about the serialized object are exactly
the facts about its parse. -/
theorem getAttributesFromTools_roundtrip (name : String)
    (description : Option String) (parameters : Json) (strict : Option Bool) :
    getAttributesFromTools (some [.functionTool name description parameters strict]) =
      [(LLM_TOOLS ++ "." ++ toString 0 ++ "." ++ TOOL_JSON_SCHEMA,
        .s (safeSerialize (toolSchemaJson name description parameters strict)))] ∧
    jsonObjGet (toolSchemaJson name description parameters strict) "type" =
      some (.strJ "function") ∧
    (match jsonObjGet (toolSchemaJson name description parameters strict) "function" with
     | some f =>
       jsonObjGet f "name" = some (.strJ name) ∧
       jsonObjGet f "parameters" = some parameters ∧
       jsonObjGet f "strict" =
         some (match strict with | some b => Json.boolJ b | none => Json.nullJ) ∧
       jsonObjGet f "description" =
         (if optStrTruthy description then some (.strJ (description.getD "")) else none)
     | none => False) := by
  refine ⟨rfl, rfl, ?_⟩
  rcases description with _ | d
  · exact ⟨rfl, rfl, rfl, rfl⟩
  · by_cases hd : d = ""
    · subst hd
      exact ⟨rfl, rfl, rfl, rfl⟩
    · have ht : optStrTruthy (some d) = true := by
        simp [optStrTruthy, strTruthy, hd]
      simp only [toolSchemaJson, ht, if_true, jsonObjGet]
      refine ⟨rfl, ?_, ?_, ?_⟩ <;> simp [jsonObjGet]

/-! ### Context scoping and metadata isolation -/

/-- C1: `runWithContext(updates, fn)` runs `fn` under an ambient context
whose Atla record is the previous one shallow-merged with `updates`, and
afterwards the ambient context is exactly what it was before the call —
whether `fn` returned or threw (the result, ok or error, passes through
unchanged).  Consequently two sequentially-run `withMetadata(meta, fn)`
calls whose `fn` synchronously reads the ambient metadata
(`getMetadata()`) each observe exactly their own validated metadata. -/
theorem runWithContext_scoped :
    (∀ (α : Type) (updates : AtlaCtx) (fn : M α) (s : TraceState),
      runWithContext updates fn s =
        (let p := fn { s with active := { s.active with
            atla := some (mergeAtlaCtx (s.active.atla.getD {}) updates) } }
         (p.1, { p.2 with active := s.active }))) ∧
    (∀ (m1 m2 : MetadataInput) (v1 v2 : Metadata) (s : TraceState),
      validateMetadata m1 = .ok v1 → validateMetadata m2 = .ok v2 →
      mBind (withMetadata m1 getMetadataM) (fun r1 =>
        mBind (withMetadata m2 getMetadataM) (fun r2 => mPure (r1, r2))) s =
        (.ok (some v1, some v2), s)) := by
  constructor
  · intro α updates fn s
    show otelWith _ fn s = _
    rcases hfn : fn { s with active := { s.active with
        atla := some (mergeAtlaCtx (s.active.atla.getD {}) updates) } } with ⟨r, s1⟩
    simp [otelWith, hfn]
  · intro m1 m2 v1 v2 s h1 h2
    simp [mBind, withMetadata, h1, h2, otelWith, getMetadataM, mPure]

/-- C1 witness: a throwing `fn` still restores the caller's state, and
two concrete sequential `withMetadata` reads observe exactly their own
metadata. -/
theorem runWithContext_scoped_witness :
    runWithContext { rootSpan := some 5 }
        (fun s => ((Except.error (JsError.thrown 3) : Except JsError Nat), s)) {} =
      ((Except.error (JsError.thrown 3) : Except JsError Nat), {}) ∧
    mBind (withMetadata (.obj [("a", "1")]) getMetadataM) (fun r1 =>
      mBind (withMetadata (.obj [("b", "2")]) getMetadataM) (fun r2 =>
        mPure (r1, r2))) {} =
      (.ok (some [("a", "1")], some [("b", "2")]), {}) :=
  ⟨runWithContext_scoped.1 Nat { rootSpan := some 5 }
      (fun s => ((Except.error (JsError.thrown 3) : Except JsError Nat), s)) {},
   runWithContext_scoped.2 (.obj [("a", "1")]) (.obj [("b", "2")])
     [("a", "1")] [("b", "2")] {} rfl rfl⟩

/-! ### Instrumentation wrapper and manual span lifecycle -/

/-- C8 counterexample: run `startAsCurrentSpan` with a callback that
throws.  The identical error is re-raised and the span is ended, but the
event log records NO exception on the span — contradicting the claim
that `startAsCurrentSpan`, like `instrument`, records the exception on
the newly created span (its source has a `finally` but no catch clause,
and the underlying `startActiveSpan` records nothing). -/
theorem startAsCurrentSpan_no_exception_recorded :
    (startAsCurrentSpanM "op" (fun _ => (mThrow (.thrown 7) : M Nat)) {}).1 =
      .error (.thrown 7) ∧
    (startAsCurrentSpanM "op" (fun _ => (mThrow (.thrown 7) : M Nat)) {}).2.events =
      [.start 0 "op", .finish 0] ∧
    ((startAsCurrentSpanM "op" (fun _ => (mThrow (.thrown 7) : M Nat)) {}).2.events.any
      (fun e => match e with | .exception _ _ => true | _ => false)) = false := by
  exact ⟨rfl, rfl, rfl⟩

/-- C8 (amended): for `instrument`'s wrapped calls (sync and async
variants share this semantics), when the callee throws the exception is
recorded on the new span and the identical error value is re-raised, the
wrapper ends the span exactly once on every completion path, and on
normal completion the callee's value passes through unmodified.
`startAsCurrentSpan` likewise re-raises the identical error, ends its
span exactly once on every path, and passes values through — but records
no exception on error. -/
theorem instrument_span_lifecycle :
    (∀ (α : Type) (spanName : String) (fn : M α) (s : TraceState),
      (s.active.atla.bind (·.suppressInstrumentation)).getD false = false →
      instrumentedCall spanName fn s =
        (let sid := s.nextId
         let p := fn { s with
           nextId := sid + 1,
           events := s.events ++ [SpanEvent.start sid spanName],
           active := { s.active with
             currentSpan := some sid,
             atla := some (mergeAtlaCtx (s.active.atla.getD {})
               { s.active.atla.getD {} with
                   rootSpan := some ((s.active.atla.bind (·.rootSpan)).getD sid) }) } }
         match p with
         | (.ok v, s1) =>
           (.ok v, { s1 with active := s.active,
                             events := s1.events ++ [SpanEvent.finish sid] })
         | (.error e, s1) =>
           (.error e, { s1 with active := s.active,
                                events := s1.events ++
                                  [SpanEvent.exception sid e, SpanEvent.finish sid] }))) ∧
    (∀ (α : Type) (name : String) (fn : Nat → M α) (s : TraceState),
      startAsCurrentSpanM name fn s =
        (let sid := s.nextId
         let p := fn sid { s with
           nextId := sid + 1,
           events := s.events ++ [SpanEvent.start sid name],
           active := { s.active with
             currentSpan := some sid,
             atla := some (mergeAtlaCtx (s.active.atla.getD {})
               { s.active.atla.getD {} with
                   rootSpan := some ((s.active.atla.bind (·.rootSpan)).getD sid) }) } }
         (p.1, { p.2 with active := s.active,
                          events := p.2.events ++ [SpanEvent.finish sid] }))) := by
  constructor
  · intro α spanName fn s hsup
    show mBind getAtlaContextM _ s = _
    simp only [mBind, getAtlaContextM, hsup, if_false]
    rcases hfn : fn { s with
        nextId := s.nextId + 1,
        events := s.events ++ [SpanEvent.start s.nextId spanName],
        active := { s.active with
          currentSpan := some s.nextId,
          atla := some (mergeAtlaCtx (s.active.atla.getD {})
            { s.active.atla.getD {} with
                rootSpan := some ((s.active.atla.bind (·.rootSpan)).getD s.nextId) }) } }
      with ⟨r, s1⟩
    cases r with
    | ok v =>
      simp [startActiveSpan, otelWith, tryCatchFinally, runWithContext,
        mBind, recordException, mThrow, endSpan, hfn]
    | error e =>
      simp [startActiveSpan, otelWith, tryCatchFinally, runWithContext,
        mBind, recordException, mThrow, endSpan, hfn, List.append_assoc]
  · intro α name fn s
    show startActiveSpan _ _ s = _
    rcases hfn : fn s.nextId { s with
        nextId := s.nextId + 1,
        events := s.events ++ [SpanEvent.start s.nextId name],
        active := { s.active with
          currentSpan := some s.nextId,
          atla := some (mergeAtlaCtx (s.active.atla.getD {})
            { s.active.atla.getD {} with
                rootSpan := some ((s.active.atla.bind (·.rootSpan)).getD s.nextId) }) } }
      with ⟨r, s1⟩
    simp [startActiveSpan, otelWith, mBind, getAtlaContextM, tryFinally,
      runWithContext, endSpan, hfn]

/-- C8 witness: a normal return passes through with the span started and
ended exactly once, and a throwing `startAsCurrentSpan` callback
re-raises the identical error with the span still ended exactly once. -/
theorem instrument_span_lifecycle_witness :
    instrumentedCall "F" (fun s => ((Except.ok 42 : Except JsError Nat), s)) {} =
      (Except.ok 42,
       { nextId := 1, events := [SpanEvent.start 0 "F", SpanEvent.finish 0] }) ∧
    startAsCurrentSpanM "op" (fun _ => (mThrow (.thrown 7) : M Nat)) {} =
      (Except.error (JsError.thrown 7),
       { nextId := 1, events := [SpanEvent.start 0 "op", SpanEvent.finish 0] }) :=
  ⟨instrument_span_lifecycle.1 Nat "F"
      (fun s => ((Except.ok 42 : Except JsError Nat), s)) {} rfl,
   instrument_span_lifecycle.2 Nat "op" (fun _ => (mThrow (.thrown 7) : M Nat)) {}⟩

/-! ### Root-span processor provenance stamping -/

/-- C9 counterexample: a span WITH a parent (`parentSpanId` truthy),
git tracking enabled, and a resolved repository value — `onStart` stamps
the repository provenance attribute on it, contradicting the claim that
spans with a parent receive no provenance attributes (the git block of
the source runs before the `parentSpanId` early return). -/
theorem rootSpan_git_on_child_span :
    RootSpanEffect.setAttr GIT_REPO_MARK (.s "my-repo") ∈
      rootSpanOnStart none { repo := some "my-repo" } none none
        { instrumentationScope := "app", parentSpanId := some "parent1" } ∧
    optStrTruthy (some "parent1") = true := by
  exact ⟨by decide, rfl⟩

theorem gitAttr_mem_iff (m : String) (w : Option String) (v : String) :
    RootSpanEffect.setAttr m (.s v) ∈ gitAttr m w ↔ (w = some v ∧ v ≠ "") := by
  cases w with
  | none => simp [gitAttr]
  | some s0 =>
    by_cases hs : s0 = ""
    · subst hs
      constructor
      · intro hmem
        exfalso
        simp [gitAttr, strTruthy] at hmem
      · rintro ⟨h1, h2⟩
        injection h1 with h1'
        exact absurd h1'.symm h2
    · have ht : strTruthy s0 = true := by simp [strTruthy, hs]
      simp only [gitAttr, ht, if_true]
      constructor
      · intro h
        rw [List.mem_singleton] at h
        cases h
        exact ⟨rfl, hs⟩
      · rintro ⟨h1, _⟩
        cases h1
        exact List.mem_singleton.mpr rfl

theorem gitAttr_not_mem_ne (m m' : String) (w : Option String) (v : AttrVal)
    (h : m ≠ m') : RootSpanEffect.setAttr m v ∉ gitAttr m' w := by
  cases w with
  | none => simp [gitAttr]
  | some s0 =>
    by_cases hs : strTruthy s0 = true
    · simp only [gitAttr, hs, if_true]
      intro hmem
      rw [List.mem_singleton] at hmem
      injection hmem with h1 _
      exact h h1
    · simp [gitAttr, hs]

/-- C9 (amended): `onStart` is exactly scope renaming, then — whenever
the git-tracking opt-out environment variable is not truthy — the git
provenance block on EVERY span (parented or not), then the root-only
block (success sentinel, experiment, metadata) on spans without a parent
only; and each of the six provenance attributes appears in the git block
if and only if its process-captured value resolved to a non-empty string
(so unresolved values produce no attribute, never an empty string). -/
theorem rootSpanOnStart_amended (env : Option String) (git : GitInfo)
    (md : Option Metadata) (ctx : Option AtlaCtx) (span : ProcSpanInfo) :
    rootSpanOnStart env git md ctx span =
      renameScopeEffects span.instrumentationScope
      ++ (if optStrTruthy env then [] else gitProvenance git)
      ++ (if optStrTruthy span.parentSpanId then [] else rootOnlyStamp md ctx) ∧
    (∀ v : String,
      (RootSpanEffect.setAttr GIT_REPO_MARK (.s v) ∈ gitProvenance git ↔
        git.repo = some v ∧ v ≠ "") ∧
      (RootSpanEffect.setAttr GIT_BRANCH_MARK (.s v) ∈ gitProvenance git ↔
        git.branch = some v ∧ v ≠ "") ∧
      (RootSpanEffect.setAttr GIT_COMMIT_HASH_MARK (.s v) ∈ gitProvenance git ↔
        git.commitHash = some v ∧ v ≠ "") ∧
      (RootSpanEffect.setAttr GIT_COMMIT_MESSAGE_MARK (.s v) ∈ gitProvenance git ↔
        git.commitMessage = some v ∧ v ≠ "") ∧
      (RootSpanEffect.setAttr GIT_COMMIT_TIMESTAMP_MARK (.s v) ∈ gitProvenance git ↔
        git.commitTimestamp = some v ∧ v ≠ "") ∧
      (RootSpanEffect.setAttr GIT_SEMVER_MARK (.s v) ∈ gitProvenance git ↔
        git.semver = some v ∧ v ≠ "")) := by
  constructor
  · unfold rootSpanOnStart
    rcases env with _ | e
    · rfl
    · by_cases he : strTruthy e = true
      · simp [optStrTruthy, he]
      · simp only [optStrTruthy] at *
        simp [he]
  · intro v
    have mk : ∀ (a b : String), a ≠ b → ∀ w,
        RootSpanEffect.setAttr a (.s v) ∉ gitAttr b w :=
      fun a b hab w => gitAttr_not_mem_ne a b w (.s v) hab
    refine ⟨?_, ?_, ?_, ?_, ?_, ?_⟩ <;>
      simp [gitProvenance, List.mem_append, gitAttr_mem_iff,
        mk GIT_REPO_MARK GIT_BRANCH_MARK (by decide),
        mk GIT_REPO_MARK GIT_COMMIT_HASH_MARK (by decide),
        mk GIT_REPO_MARK GIT_COMMIT_MESSAGE_MARK (by decide),
        mk GIT_REPO_MARK GIT_COMMIT_TIMESTAMP_MARK (by decide),
        mk GIT_REPO_MARK GIT_SEMVER_MARK (by decide),
        mk GIT_BRANCH_MARK GIT_REPO_MARK (by decide),
        mk GIT_BRANCH_MARK GIT_COMMIT_HASH_MARK (by decide),
        mk GIT_BRANCH_MARK GIT_COMMIT_MESSAGE_MARK (by decide),
        mk GIT_BRANCH_MARK GIT_COMMIT_TIMESTAMP_MARK (by decide),
        mk GIT_BRANCH_MARK GIT_SEMVER_MARK (by decide),
        mk GIT_COMMIT_HASH_MARK GIT_REPO_MARK (by decide),
        mk GIT_COMMIT_HASH_MARK GIT_BRANCH_MARK (by decide),
        mk GIT_COMMIT_HASH_MARK GIT_COMMIT_MESSAGE_MARK (by decide),
        mk GIT_COMMIT_HASH_MARK GIT_COMMIT_TIMESTAMP_MARK (by decide),
        mk GIT_COMMIT_HASH_MARK GIT_SEMVER_MARK (by decide),
        mk GIT_COMMIT_MESSAGE_MARK GIT_REPO_MARK (by decide),
        mk GIT_COMMIT_MESSAGE_MARK GIT_BRANCH_MARK (by decide),
        mk GIT_COMMIT_MESSAGE_MARK GIT_COMMIT_HASH_MARK (by decide),
        mk GIT_COMMIT_MESSAGE_MARK GIT_COMMIT_TIMESTAMP_MARK (by decide),
        mk GIT_COMMIT_MESSAGE_MARK GIT_SEMVER_MARK (by decide),
        mk GIT_COMMIT_TIMESTAMP_MARK GIT_REPO_MARK (by decide),
        mk GIT_COMMIT_TIMESTAMP_MARK GIT_BRANCH_MARK (by decide),
        mk GIT_COMMIT_TIMESTAMP_MARK GIT_COMMIT_HASH_MARK (by decide),
        mk GIT_COMMIT_TIMESTAMP_MARK GIT_COMMIT_MESSAGE_MARK (by decide),
        mk GIT_COMMIT_TIMESTAMP_MARK GIT_SEMVER_MARK (by decide),
        mk GIT_SEMVER_MARK GIT_REPO_MARK (by decide),
        mk GIT_SEMVER_MARK GIT_BRANCH_MARK (by decide),
        mk GIT_SEMVER_MARK GIT_COMMIT_HASH_MARK (by decide),
        mk GIT_SEMVER_MARK GIT_COMMIT_MESSAGE_MARK (by decide),
        mk GIT_SEMVER_MARK GIT_COMMIT_TIMESTAMP_MARK (by decide)]

/-! ### Agent-trace processor: null start time -/

/-- C10: a span-start event whose `startedAt` is `null` creates no span
and leaves the correlation state (including `spanMap` and `tokens`)
unchanged; consequently, when the span id is absent from both maps, a
later `onSpanEnd` for it performs no span operation and changes no
state. -/
theorem onSpanStart_null_started (st : ProcessorState) (sp : AgentSpanEvent)
    (h : sp.startedAt = none) :
    onSpanStart st sp = (st, []) ∧
    (mapGet st.spanMap sp.spanId = none → mapGet st.tokens sp.spanId = none →
      onSpanEnd st sp = (st, [])) := by
  constructor
  · simp [onSpanStart, h]
  · intro h1 h2
    simp [onSpanEnd, h1, h2]

/-- C10 witness: the empty processor state and a concrete null-start
agent span. -/
theorem onSpanStart_null_started_witness :
    onSpanStart {} { spanId := "s1", traceId := "t1", spanData := .agent "A" } =
      ({}, []) ∧
    onSpanEnd {} { spanId := "s1", traceId := "t1", spanData := .agent "A" } =
      ({}, []) :=
  ⟨(onSpanStart_null_started {}
      { spanId := "s1", traceId := "t1", spanData := .agent "A" } rfl).1,
   (onSpanStart_null_started {}
      { spanId := "s1", traceId := "t1", spanData := .agent "A" } rfl).2 rfl rfl⟩

end AtlaInsights
